import Mathlib

/-!
Verification development for the burn language server
(`burnlang/vscode-burn`). The definitions below are shallow embeddings of
the TypeScript sources: the diagnostic pipeline (`validator`, given here as
`validateTextDocument`, `checkSyn`, `checkSemantics`, `lintDocument`), the
symbol index (`BurnTypeTracker` in `typechecker.ts`), the compiler-output
parser (`parseCompilerErrors`) and the temp-file naming (`utils.ts`).
Text is a `List Char`; JS `Map`s are insertion-ordered association lists;
regex scans are translated into explicit left-to-right matchers with the
same greedy/lazy backtracking behaviour.
-/

/-- LSP diagnostic severity. -/
inductive Sev where
  | err
  | warn
  | info
  | hint
deriving DecidableEq, Repr

/-- A line/character position, as produced by `TextDocument.positionAt` /
`getPositionFromOffset`.  Fields are `Int` because the compiler-output
parser subtracts 1 from parsed line/column numbers without clamping. -/
structure DiagPos where
  line : Int
  character : Int
deriving DecidableEq, Repr

/-- A published diagnostic: severity, range, message, source tag. -/
structure Diag where
  severity : Sev
  startPos : DiagPos
  endPos : DiagPos
  message : String
  source : String
deriving DecidableEq, Repr

/-- Character at index `i` (JS `charAt` returns the empty string past the
end; we model that with `Option`). -/
def charAt (text : List Char) (i : Nat) : Option Char :=
  text[i]?

/-- JS `\s` on the ASCII range: space, tab, newline, carriage return,
vertical tab, form feed. -/
def isSpaceJS (c : Char) : Bool :=
  c = ' ' || c = '\t' || c = '\n' || c = '\r' || c = '\x0b' || c = '\x0c'

/-- The regex class `[a-zA-Z_]`. -/
def isIdentStart (c : Char) : Bool :=
  ('a' ≤ c && c ≤ 'z') || ('A' ≤ c && c ≤ 'Z') || c = '_'

/-- The regex class `[a-zA-Z0-9_]` (also the JS `\w` / word class). -/
def isIdentChar (c : Char) : Bool :=
  isIdentStart c || ('0' ≤ c && c ≤ '9')

/-- The regex class `[0-9]` / `\d`. -/
def isDigitJS (c : Char) : Bool :=
  '0' ≤ c && c ≤ '9'

/-- First index `≥ i` whose character fails `p` (or the text length). -/
def runWhile (p : Char → Bool) (text : List Char) (i : Nat) : Nat :=
  i + ((text.drop i).takeWhile p).length

/-- The characters of `text` from index `a` (inclusive) to `b` (exclusive),
like JS `substring` for `a ≤ b`. -/
def subRange (text : List Char) (a b : Nat) : List Char :=
  (text.take b).drop a

/-- JS `String.prototype.trim`. -/
def trimJS (cs : List Char) : List Char :=
  ((cs.dropWhile isSpaceJS).reverse.dropWhile isSpaceJS).reverse

/-- `n` is a prefix-at-some-position of `h`. -/
def infixOf (n : List Char) : List Char → Bool
  | [] => n.isEmpty
  | c :: rest => n.isPrefixOf (c :: rest) || infixOf n rest

/-- `needle` occurs as a substring of `hay` (JS `String.includes`). -/
def containsStr (needle hay : String) : Bool :=
  infixOf needle.data hay.data

/-- ASCII lower-casing of one character (what JS `toLowerCase` does on the
identifier alphabet). -/
def charLower (c : Char) : Char :=
  if 'A' ≤ c && c ≤ 'Z' then Char.ofNat (c.toNat + 32) else c

/-- JS `String.prototype.toLowerCase` on ASCII strings. -/
def lowerStr (s : String) : String :=
  ⟨s.data.map charLower⟩

/-- Split a character list on one separator (JS `split(sep)`). -/
def splitOnChar (sep : Char) : List Char → List (List Char)
  | [] => [[]]
  | c :: rest =>
    let r := splitOnChar sep rest
    if c = sep then [] :: r
    else
      match r with
      | h :: t => (c :: h) :: t
      | [] => [[c]]

/-- `TextDocument.positionAt` / `getPositionFromOffset`: line = number of
newlines before `offset`, character = offset from the last newline. -/
def positionAt (text : List Char) (offset : Nat) : DiagPos :=
  let pre := text.take offset
  ⟨(pre.count '\n' : Int), ((pre.reverse.takeWhile (fun c => c ≠ '\n')).length : Int)⟩

/-- Insertion-ordered association-list update with JS `Map.set`
semantics: an existing key keeps its position, a new key is appended. -/
def mapSet {α : Type} (m : List (String × α)) (k : String) (v : α) :
    List (String × α) :=
  match m with
  | [] => [(k, v)]
  | (k', v') :: rest =>
    if k' = k then (k', v) :: rest else (k', v') :: mapSet rest k v

/-- JS `Map.get` on the association-list model. -/
def alookup {α : Type} (m : List (String × α)) (k : String) : Option α :=
  match m with
  | [] => none
  | (k', v) :: rest => if k' = k then some v else alookup rest k

/-! ## The syntax stage (`checkSyntax` in the validator) -/

/-- The keyword set of the syntax scanner. -/
def kwList : List String :=
  ["fun", "var", "const", "if", "else", "while", "for", "return", "import",
   "def", "class"]

/-- The declaration-keyword subset. -/
def declKwList : List String :=
  ["fun", "var", "const", "def", "class"]

/-- Mutable state of the single left-to-right scan in `checkSyntax`.
The open-position arrays are modelled as stacks with the top at the head
(JS pushes/pops/reads at the array end). -/
structure SynSt where
  braces : Int
  parens : Int
  brackets : Int
  openBracePos : List Nat
  openParenPos : List Nat
  openBracketPos : List Nat
  inString : Bool
  stringStart : Int
  stringChar : Char
  inLineComment : Bool
  diags : List Diag
deriving DecidableEq, Repr

/-- Initial scanner state. -/
def synInit : SynSt :=
  ⟨0, 0, 0, [], [], [], false, -1, ' ', false, []⟩

/-- An error diagnostic of the syntax stage at offsets `[a, b)`. -/
def synDiag (text : List Char) (a b : Nat) (msg : String) : Diag :=
  ⟨Sev.err, positionAt text a, positionAt text b, msg, "burn-syntax"⟩

/-- One `while` pass of `checkSyntax`, fuelled (each iteration advances the
index by at least one, so fuel `text.length + 1` runs the loop to its
`i < text.length` exit just as the source does). -/
def synLoop (text : List Char) : Nat → Nat → SynSt → SynSt
  | 0, _, st => st
  | fuel + 1, i, st =>
    if i < text.length then
      let c := text.getD i ' '
      if c = '/' ∧ charAt text (i + 1) = some '/' then
        synLoop text fuel (i + 2) { st with inLineComment := true }
      else if st.inLineComment then
        synLoop text fuel (i + 1)
          (if c = '\n' then { st with inLineComment := false } else st)
      else if ¬st.inString ∧ (c = '"' ∨ c = '\'') then
        synLoop text fuel (i + 1)
          { st with inString := true, stringStart := (i : Int), stringChar := c }
      else if st.inString then
        if c = '\\' then
          synLoop text fuel (i + 2) st
        else if c = st.stringChar then
          synLoop text fuel (i + 1) { st with inString := false }
        else if c = '\n' then
          synLoop text fuel (i + 1)
            { st with inString := false,
                      diags := st.diags ++
                        [⟨Sev.err, positionAt text st.stringStart.toNat,
                          positionAt text i, "Unterminated string literal",
                          "burn-syntax"⟩] }
        else
          synLoop text fuel (i + 1) st
      else if c = '{' then
        synLoop text fuel (i + 1)
          { st with braces := st.braces + 1, openBracePos := i :: st.openBracePos }
      else if c = '}' then
        let b := st.braces - 1
        let ob := st.openBracePos.tail
        if b < 0 then
          synLoop text fuel (i + 1)
            { st with braces := 0, openBracePos := ob,
                      diags := st.diags ++
                        [synDiag text i (i + 1) "Unexpected closing brace \x27\x7d\x27"] }
        else
          synLoop text fuel (i + 1) { st with braces := b, openBracePos := ob }
      else if c = '(' then
        synLoop text fuel (i + 1)
          { st with parens := st.parens + 1, openParenPos := i :: st.openParenPos }
      else if c = ')' then
        let b := st.parens - 1
        let ob := st.openParenPos.tail
        if b < 0 then
          synLoop text fuel (i + 1)
            { st with parens := 0, openParenPos := ob,
                      diags := st.diags ++
                        [synDiag text i (i + 1) "Unexpected closing parenthesis \x27)\x27"] }
        else
          synLoop text fuel (i + 1) { st with parens := b, openParenPos := ob }
      else if c = '[' then
        synLoop text fuel (i + 1)
          { st with brackets := st.brackets + 1,
                    openBracketPos := i :: st.openBracketPos }
      else if c = ']' then
        let b := st.brackets - 1
        let ob := st.openBracketPos.tail
        if b < 0 then
          synLoop text fuel (i + 1)
            { st with brackets := 0, openBracketPos := ob,
                      diags := st.diags ++
                        [synDiag text i (i + 1) "Unexpected closing bracket \x27]\x27"] }
        else
          synLoop text fuel (i + 1) { st with brackets := b, openBracketPos := ob }
      else if isIdentStart c then
        let j := runWhile isIdentChar text (i + 1)
        let word : String := ⟨subRange text i j⟩
        if kwList.contains word ∧ declKwList.contains word ∧ j < text.length then
          let k := runWhile isSpaceJS text j
          if k < text.length ∧ ¬isIdentStart (text.getD k ' ') then
            synLoop text fuel j
              { st with diags := st.diags ++
                  [synDiag text i j
                    ("Expected identifier after \x27" ++ word ++ "\x27")] }
          else
            synLoop text fuel j st
        else
          synLoop text fuel j st
      else
        synLoop text fuel (i + 1) st
    else st

/-- The end-of-scan reports of `checkSyntax`: one error per delimiter type
at the last unmatched open position, then the unterminated-string check. -/
def synFinish (text : List Char) (st : SynSt) : SynSt :=
  let st :=
    match st.openBracePos with
    | p :: _ =>
      if st.braces > 0 then
        { st with diags := st.diags ++
            [synDiag text p (p + 1) "Unclosed brace \x27\x7b\x27"] }
      else st
    | [] => st
  let st :=
    match st.openParenPos with
    | p :: _ =>
      if st.parens > 0 then
        { st with diags := st.diags ++
            [synDiag text p (p + 1) "Unclosed parenthesis \x27(\x27"] }
      else st
    | [] => st
  let st :=
    match st.openBracketPos with
    | p :: _ =>
      if st.brackets > 0 then
        { st with diags := st.diags ++
            [synDiag text p (p + 1) "Unclosed bracket \x27[\x27"] }
      else st
    | [] => st
  if st.inString ∧ st.stringStart ≥ 0 then
    { st with diags := st.diags ++
        [⟨Sev.err, positionAt text st.stringStart.toNat,
          positionAt text text.length, "Unterminated string literal",
          "burn-syntax"⟩] }
  else st

/-- `checkSyntax document text`: the full syntax stage. -/
def checkSyn (text : List Char) : List Diag :=
  (synFinish text (synLoop text (text.length + 1) 0 synInit)).diags

/-- The critical-failure predicate of the validator: an error whose message
contains `Unclosed` or `Unexpected closing`. -/
def isCritical (d : Diag) : Bool :=
  d.severity == Sev.err &&
    (containsStr "Unclosed" d.message || containsStr "Unexpected closing" d.message)

example :
    checkSyn ("fun f() \x7b \x7d\n\x7d".data) =
      [⟨Sev.err, ⟨1, 0⟩, ⟨1, 1⟩, "Unexpected closing brace \x27\x7d\x27",
        "burn-syntax"⟩] := by
  decide

example :
    checkSyn ("var =".data) =
      [⟨Sev.err, ⟨0, 0⟩, ⟨0, 3⟩, "Expected identifier after \x27var\x27",
        "burn-syntax"⟩] := by
  decide

example : (checkSyn ("var a = 1\n\x7d".data)).any isCritical = true := by
  decide

/-! ## Regex-scan infrastructure

Each JS `regex.exec` loop with the `g` flag is modelled by a left-to-right
scan: at each index we attempt the pattern; a match yields its data and the
index just past the match (the new `lastIndex`), a failure advances one
character.  Greedy/lazy sub-patterns are resolved explicitly where the
source regexes allow backtracking. -/

/-- Fuelled exec-loop over a try-at-one-position matcher. -/
def scanA {α : Type} (tryAt : List Char → Nat → Option (α × Nat))
    (text : List Char) : Nat → Nat → List α
  | 0, _ => []
  | fuel + 1, i =>
    if i < text.length then
      match tryAt text i with
      | some (a, nxt) => a :: scanA tryAt text fuel nxt
      | none => scanA tryAt text fuel (i + 1)
    else []

/-- Literal match at index `i`; returns the index past the literal. -/
def litAt (text : List Char) (i : Nat) (s : List Char) : Option Nat :=
  if s.isPrefixOf (text.drop i) then some (i + s.length) else none

/-- `[a-zA-Z_][a-zA-Z0-9_]*` at index `i`: the captured word and its end. -/
def identAt (text : List Char) (i : Nat) : Option (String × Nat) :=
  match charAt text i with
  | some c =>
    if isIdentStart c then
      let e := runWhile isIdentChar text (i + 1)
      some (⟨subRange text i e⟩, e)
    else none
  | none => none

/-- `\s+` at index `i` (at least one whitespace character). -/
def spacesReq (text : List Char) (i : Nat) : Option Nat :=
  let e := runWhile isSpaceJS text i
  if i < e then some e else none

/-- The negative-lookahead body `\s*(?:=|\(|\{|\[|:)` shared by the two
usage regexes: true when it matches at `p`. -/
def lookaheadSet (text : List Char) (p : Nat) : Bool :=
  let q := runWhile isSpaceJS text p
  match charAt text q with
  | some ch => ch = '=' || ch = '(' || ch = '{' || ch = '[' || ch = ':'
  | none => false

/-- The tail `(?:\s*=\s*|$)` of the var-declaration regex, tried at `p`. -/
def eqTailAt (text : List Char) (p : Nat) : Option Nat :=
  let t1 := runWhile isSpaceJS text p
  if charAt text t1 = some '=' then some (runWhile isSpaceJS text (t1 + 1))
  else if p = text.length then some p
  else none

/-- The optional group `\s*:\s*[a-zA-Z_][a-zA-Z0-9_]*` tried at `p`. -/
def typeAnnAt (text : List Char) (p : Nat) : Option Nat :=
  let a1 := runWhile isSpaceJS text p
  if charAt text a1 = some ':' then
    let a2 := runWhile isSpaceJS text (a1 + 1)
    match identAt text a2 with
    | some (_, e) => some e
    | none => none
  else none

/-- One attempt of
`(?:var|const)\s+([a-zA-Z_][a-zA-Z0-9_]*)(?:\s*:\s*[a-zA-Z_][a-zA-Z0-9_]*)?(?:\s*=\s*|$)`,
the declaration regex shared by the lint and semantics stages.  Yields
(captured name, match index) and the new `lastIndex`. -/
def varDeclTryAt (text : List Char) (i : Nat) :
    Option ((String × Nat) × Nat) :=
  match (litAt text i ("var".data)) <|> (litAt text i ("const".data)) with
  | none => none
  | some kwEnd =>
    match spacesReq text kwEnd with
    | none => none
    | some s1 =>
      match identAt text s1 with
      | none => none
      | some (nm, j2) =>
        let fin :=
          match typeAnnAt text j2 with
          | some a =>
            match eqTailAt text a with
            | some e => some e
            | none => eqTailAt text j2
          | none => eqTailAt text j2
        match fin with
        | some e => some ((nm, i), e)
        | none => none

/-- All matches of the var-declaration regex: (name, match index) pairs. -/
def varDeclScan (text : List Char) : List (String × Nat) :=
  scanA varDeclTryAt text (text.length + 1) 0

/-- One attempt of the lint usage regex
`([a-zA-Z_][a-zA-Z0-9_]*)(?!\s*(?:=|\(|\{|\[|:))`: the greedy capture
backtracks (shrinks) until the negative lookahead succeeds. -/
def shrinkEnd (text : List Char) (i : Nat) : Nat → Option Nat
  | 0 => none
  | len + 1 =>
    if ¬lookaheadSet text (i + len + 1) then some (i + len + 1)
    else shrinkEnd text i len

def lintUsageTryAt (text : List Char) (i : Nat) : Option (String × Nat) :=
  match charAt text i with
  | some c =>
    if isIdentStart c then
      let e := runWhile isIdentChar text (i + 1)
      match shrinkEnd text i (e - i) with
      | some e' => some (⟨subRange text i e'⟩, e')
      | none => none
    else none
  | none => none

/-- All lint-stage usage matches (names only; the lint stage ignores
positions of usages). -/
def lintUsageScan (text : List Char) : List String :=
  scanA lintUsageTryAt text (text.length + 1) 0

/-- One attempt of `(fun|if|while|for|else)\s*[^{]*\s*\{`: a keyword (the
alternation is ordered, no word boundary) followed by the next `{`.
Yields the match index and that brace's index, advancing past it. -/
def braceStyleTryAt (text : List Char) (i : Nat) :
    Option ((Nat × Nat) × Nat) :=
  let kw := (["fun", "if", "while", "for", "else"].map String.data).findSome?
    (fun k => litAt text i k)
  match kw with
  | none => none
  | some kEnd =>
    let q := runWhile (fun c => c ≠ '{') text kEnd
    if q < text.length then some ((i, q), q + 1) else none

def braceStyleScan (text : List Char) : List (Nat × Nat) :=
  scanA braceStyleTryAt text (text.length + 1) 0

/-! ## The lint stage (`lintDocument`) -/

/-- `lintDocument document text`: declared-but-unused variable hints
followed by brace-style hints. -/
def lintDocument (text : List Char) : List Diag :=
  let declMap : List (String × (Nat × Bool)) :=
    (varDeclScan text).foldl (fun m p => mapSet m p.1 (p.2, false)) []
  let declMap :=
    (lintUsageScan text).foldl
      (fun m nm =>
        match alookup m nm with
        | some (p, _) => mapSet m nm (p, true)
        | none => m)
      declMap
  let unused := declMap.filterMap fun (nm, p, used) =>
    if ¬used ∧ ¬(("_".data).isPrefixOf nm.data) then
      some (⟨Sev.hint, positionAt text p, positionAt text (p + nm.length + 4),
        "Variable \x27" ++ nm ++ "\x27 is declared but never used",
        "burn-lint"⟩ : Diag)
    else none
  let style := (braceStyleScan text).filterMap fun (_, q) =>
    if 0 < q ∧ text.getD (q - 1) ' ' ≠ ' ' ∧ text.getD (q - 1) ' ' ≠ '\n' then
      some (⟨Sev.hint, positionAt text q, positionAt text (q + 1),
        "Consider adding a space before opening brace for consistent style",
        "burn-style"⟩ : Diag)
    else none
  unused ++ style

example :
    lintDocument ("var a = 1\n\x7d".data) =
      [⟨Sev.hint, ⟨0, 0⟩, ⟨0, 5⟩,
        "Variable \x27a\x27 is declared but never used", "burn-lint"⟩] := by
  decide

/-! ## The semantics stage (`checkSemantics`) -/

/-- One attempt of `class\s+([a-zA-Z_][a-zA-Z0-9_]*)\s*\{`
(also used with `def` for the type-name scan). -/
def nameBraceTryAt (kw : List Char) (text : List Char) (i : Nat) :
    Option (String × Nat) :=
  match litAt text i kw with
  | none => none
  | some kEnd =>
    match spacesReq text kEnd with
    | none => none
    | some s1 =>
      match identAt text s1 with
      | none => none
      | some (nm, e) =>
        let b := runWhile isSpaceJS text e
        if charAt text b = some '{' then some (nm, b + 1) else none

def classNameScan (text : List Char) : List String :=
  scanA (nameBraceTryAt ("class".data)) text (text.length + 1) 0

def defNameScan (text : List Char) : List String :=
  scanA (nameBraceTryAt ("def".data)) text (text.length + 1) 0

/-- First `//` inside the current line (`[i, lineEnd)`). -/
def findSlashes (text : List Char) : Nat → Nat → Nat → Option Nat
  | 0, _, _ => none
  | fuel + 1, i, lineEnd =>
    if i < lineEnd then
      if text.getD i ' ' = '/' ∧ charAt text (i + 1) = some '/' then some i
      else findSlashes text fuel (i + 1) lineEnd
    else none

/-- Matches of `//.*$` with the `gm` flags: per line, from the first `//`
to the end of that line. -/
def commentRegionsAux (text : List Char) : Nat → Nat → List (Nat × Nat)
  | 0, _ => []
  | fuel + 1, ls =>
    if ls ≤ text.length then
      let le := runWhile (fun c => c ≠ '\n') text ls
      let rest := commentRegionsAux text fuel (le + 1)
      match findSlashes text (le - ls + 1) ls le with
      | some j => (j, le) :: rest
      | none => rest
    else []

def commentRegions (text : List Char) : List (Nat × Nat) :=
  commentRegionsAux text (text.length + 2) 0

/-- Body of a string literal for
`"(?:[^"\\]|\\.)*"` / `'(?:[^'\\]|\\.)*'`: returns the index past the
closing quote.  A backslash must be followed by a non-line-terminator
(`\\.`); any other character, including a newline, is `[^"\\]`. -/
def strBodyEnd (text : List Char) (q : Char) : Nat → Nat → Option Nat
  | 0, _ => none
  | fuel + 1, i =>
    match charAt text i with
    | none => none
    | some c =>
      if c = q then some (i + 1)
      else if c = '\\' then
        match charAt text (i + 1) with
        | some c2 =>
          if c2 = '\n' ∨ c2 = '\r' then none
          else strBodyEnd text q fuel (i + 2)
        | none => none
      else strBodyEnd text q fuel (i + 1)

def stringRegionTryAt (text : List Char) (i : Nat) :
    Option ((Nat × Nat) × Nat) :=
  match charAt text i with
  | some c =>
    if c = '"' ∨ c = '\'' then
      match strBodyEnd text c (text.length + 1) (i + 1) with
      | some e => some ((i, e), e)
      | none => none
    else none
  | none => none

def stringRegions (text : List Char) : List (Nat × Nat) :=
  scanA stringRegionTryAt text (text.length + 1) 0

/-- `isInNonCodeRegion`. -/
def inNonCode (pos : Nat) (regions : List (Nat × Nat)) : Bool :=
  regions.any fun r => r.1 ≤ pos ∧ pos < r.2

/-- One attempt of `for\s*\(\s*var\s+([a-zA-Z_][a-zA-Z0-9_]*)`. -/
def forLoopTryAt (text : List Char) (i : Nat) : Option (String × Nat) :=
  match litAt text i ("for".data) with
  | none => none
  | some kEnd =>
    let s1 := runWhile isSpaceJS text kEnd
    if charAt text s1 = some '(' then
      let s2 := runWhile isSpaceJS text (s1 + 1)
      match litAt text s2 ("var".data) with
      | none => none
      | some vEnd =>
        match spacesReq text vEnd with
        | none => none
        | some s3 =>
          match identAt text s3 with
          | some (nm, e) => some (nm, e)
          | none => none
    else none

def forLoopScan (text : List Char) : List String :=
  scanA forLoopTryAt text (text.length + 1) 0

/-- One attempt of `fun\s+[a-zA-Z_][a-zA-Z0-9_]*\s*\(\s*([^)]*)\s*\)`:
captures the parameter text between the parentheses (after the greedy
leading `\s*`). -/
def funParamsTryAt (text : List Char) (i : Nat) :
    Option (List Char × Nat) :=
  match litAt text i ("fun".data) with
  | none => none
  | some kEnd =>
    match spacesReq text kEnd with
    | none => none
    | some s1 =>
      match identAt text s1 with
      | none => none
      | some (_, e) =>
        let p := runWhile isSpaceJS text e
        if charAt text p = some '(' then
          let lead := runWhile isSpaceJS text (p + 1)
          let r := runWhile (fun c => c ≠ ')') text lead
          if r < text.length then some (subRange text lead r, r + 1) else none
        else none

def funParamsScan (text : List Char) : List (List Char) :=
  scanA funParamsTryAt text (text.length + 1) 0

/-- `([a-zA-Z_][a-zA-Z0-9_]*)(?:\s*:\s*[a-zA-Z_][a-zA-Z0-9_]*)?` applied
with a bare `exec` to one trimmed parameter: the first identifier run. -/
def firstIdentIn (cs : List Char) : Option String :=
  let d := cs.dropWhile (fun c => ¬isIdentStart c)
  match d with
  | [] => none
  | _ :: _ => some ⟨d.takeWhile isIdentChar⟩

/-- The parameter names declared by all function headers. -/
def paramNamesScan (text : List Char) : List String :=
  (funParamsScan text).flatMap fun cap =>
    (splitOnChar ',' cap).filterMap fun p => firstIdentIn (trimJS p)

/-- Matches of the semantics usage regex
`\b([a-zA-Z_][a-zA-Z0-9_]*)\b(?!\s*(?:=|\(|\{|\[|:))`: word boundaries on
both sides force whole word-runs, so the scan walks maximal word runs. -/
def semUsageScanAux (text : List Char) : Nat → Nat → List (String × Nat)
  | 0, _ => []
  | fuel + 1, i =>
    if i < text.length then
      let c := text.getD i ' '
      if isIdentChar c then
        let e := runWhile isIdentChar text i
        if isIdentStart c ∧ ¬lookaheadSet text e then
          (⟨subRange text i e⟩, i) :: semUsageScanAux text fuel e
        else semUsageScanAux text fuel e
      else semUsageScanAux text fuel (i + 1)
    else []

def semUsageScan (text : List Char) : List (String × Nat) :=
  semUsageScanAux text (text.length + 1) 0

/-- The built-in type allowlist of the semantics stage. -/
def builtInTypesList : List String :=
  ["string", "int", "float", "bool", "nil", "Date", "Time", "any"]

/-- The built-in name allowlist of the semantics stage (matched against the
lowercased identifier). -/
def builtInsList : List String :=
  ["print", "toString", "input", "now", "formatDate", "createDate",
   "currentYear", "currentMonth", "currentDay", "power", "isEven", "join",
   "addDays", "subtractDays", "isLeapYear", "daysInMonth", "dayOfWeek",
   "i", "j", "k", "index", "value", "key", "true", "false"]

/-- The keyword list excluded from usage reporting. -/
def semKwSkip : List String :=
  ["var", "const", "fun", "def", "class", "if", "else", "while", "for",
   "return", "import", "true", "false", "nil"]

/-- `varUsages.get(name).push(pos)` with create-if-missing. -/
def addUsage (m : List (String × List Nat)) (nm : String) (pos : Nat) :
    List (String × List Nat) :=
  match alookup m nm with
  | some ps => mapSet m nm (ps ++ [pos])
  | none => m ++ [(nm, [pos])]

/-- The recorded-usage map of `checkSemantics` (name → positions, in
insertion order), after all scan-time guards. -/
def semUsageMap (text : List Char) : List (String × List Nat) :=
  let declaredVars :=
    (varDeclScan text).map Prod.fst ++ forLoopScan text ++ paramNamesScan text
  let declaredClasses := classNameScan text
  let declaredTypes := defNameScan text
  let regions := commentRegions text ++ stringRegions text
  (semUsageScan text).foldl
    (fun m p =>
      let nm := p.1
      let pos := p.2
      if inNonCode pos regions then m
      else if ¬semKwSkip.contains nm ∧ ¬declaredVars.contains nm ∧
          ¬builtInsList.contains (lowerStr nm) ∧ ¬declaredClasses.contains nm ∧
          ¬declaredTypes.contains nm ∧ ¬builtInTypesList.contains nm then
        if (nm.data ≠ [] ∧ nm.data.all isDigitJS) ∨ nm = "true" ∨ nm = "false" then m
        else if (trimJS (subRange text (pos - 20) pos)).getLast? = some '.' then m
        else addUsage m nm pos
      else m)
    []

/-- The (name, first position) pairs reported by `checkSemantics` after the
final `forEach` guards. -/
def checkSemanticsCore (text : List Char) : List (String × Nat) :=
  let declaredVars :=
    (varDeclScan text).map Prod.fst ++ forLoopScan text ++ paramNamesScan text
  let declaredClasses := classNameScan text
  let declaredTypes := defNameScan text
  (semUsageMap text).filterMap fun (nm, ps) =>
    if ¬declaredVars.contains nm ∧ ¬builtInsList.contains (lowerStr nm) ∧
        ¬declaredClasses.contains nm ∧ ¬declaredTypes.contains nm ∧
        ¬builtInTypesList.contains nm then
      match ps with
      | p :: _ => some (nm, p)
      | [] => none
    else none

/-- `checkSemantics document text`: one used-but-not-declared warning per
reported name, at its first recorded occurrence. -/
def checkSemantics (text : List Char) : List Diag :=
  (checkSemanticsCore text).map fun (nm, p) =>
    ⟨Sev.warn, positionAt text p, positionAt text (p + nm.length),
      "Variable \x27" ++ nm ++ "\x27 is used but not declared",
      "burn-semantics"⟩

example :
    checkSemantics ("def Point \x7b x: int, y \x7d".data) =
      [⟨Sev.warn, ⟨0, 20⟩, ⟨0, 21⟩,
        "Variable \x27y\x27 is used but not declared", "burn-semantics"⟩] := by
  decide

/-! ## The validation pipeline (`validateTextDocument`) with its cache -/

/-- An open text document as the validator sees it. -/
structure TextDoc where
  uri : String
  version : Nat
  text : List Char
deriving DecidableEq, Repr

/-- One diagnostics-cache entry. -/
structure CacheEntry where
  version : Nat
  diagnostics : List Diag
deriving DecidableEq, Repr

/-- The external effects of a validation pass: the type-checker call
(`typeTracker.parseDocument`, which itself shells out to the compiler) and
the direct compiler call.  `none` models a thrown error / `null` return,
which the validator swallows. -/
structure Oracles where
  typeDiags : TextDoc → Option (List Diag)
  compilerOnPath : Bool
  compilerDiags : TextDoc → Option (List Diag)

/-- What a validation request did: the published list, the new cache, and
which stages actually ran. -/
structure ValidationResult where
  published : List Diag
  newCache : List (String × CacheEntry)
  ranTypeTracker : Bool
  ranSemantics : Bool
  compilerInvoked : Bool
deriving DecidableEq, Repr

/-- The cache-miss body of `validateTextDocument`: syntax and lint always
run; the critical-failure gate decides whether the type tracker, semantics
and compiler stages run; the result is cached under the document's URI and
version. -/
def runPipeline (orc : Oracles) (cache : List (String × CacheEntry))
    (doc : TextDoc) : ValidationResult :=
  let syn := checkSyn doc.text
  let lint := lintDocument doc.text
  let critical := syn.any isCritical
  if critical then
    let ds := syn ++ lint
    ⟨ds, mapSet cache doc.uri ⟨doc.version, ds⟩, false, false, false⟩
  else
    let t := (orc.typeDiags doc).getD []
    let sem := checkSemantics doc.text
    let comp :=
      if orc.compilerOnPath then (orc.compilerDiags doc).getD [] else []
    let ds := syn ++ lint ++ t ++ sem ++ comp
    ⟨ds, mapSet cache doc.uri ⟨doc.version, ds⟩, true, true, orc.compilerOnPath⟩

/-- `validateTextDocument`: a cache entry whose stored version equals the
document's version is published as-is; otherwise the pipeline runs. -/
def validateTextDocument (orc : Oracles) (cache : List (String × CacheEntry))
    (doc : TextDoc) : ValidationResult :=
  match alookup cache doc.uri with
  | some e =>
    if e.version = doc.version then ⟨e.diagnostics, cache, false, false, false⟩
    else runPipeline orc cache doc
  | none => runPipeline orc cache doc

/-- A trivial effect assignment: type tracker returns nothing, no compiler
configured. -/
def noEffects : Oracles :=
  ⟨fun _ => some [], false, fun _ => some []⟩

/-! ## The symbol index (`BurnTypeTracker`) -/

/-- `FunctionType` of `typechecker.ts`: parameter (name, type) pairs,
return type, optional documentation, optional declaration location. -/
structure FunctionType where
  parameters : List (String × String)
  returnType : String
  documentation : Option String
  location : Option (String × (DiagPos × DiagPos))
deriving DecidableEq, Repr

/-- `ClassMethod`: a `FunctionType` tagged with its owning class. -/
structure ClassMethod where
  parameters : List (String × String)
  returnType : String
  className : String
  documentation : Option String
  location : Option (String × (DiagPos × DiagPos))
deriving DecidableEq, Repr

/-- `TypeDefinition`: field name → field type, optional location. -/
structure TypeDefinition where
  fields : List (String × String)
  location : Option (String × (DiagPos × DiagPos))
deriving DecidableEq, Repr

/-- A tracked variable: type, declaration range, const flag. -/
structure VarInfo where
  type : String
  location : DiagPos × DiagPos
  isConst : Bool
deriving DecidableEq, Repr

/-- The mutable state of `BurnTypeTracker`: each field is a JS
`Map<fileUri, Map<name, info>>` (insertion-ordered). -/
structure TrackerState where
  varTbl : List (String × List (String × VarInfo))
  functions : List (String × List (String × FunctionType))
  types : List (String × List (String × TypeDefinition))
  classes : List (String × List (String × ClassMethod))
  imports : List (String × List String)
  currentFile : String
  workspaceRoot : String
  compilerPath : String
deriving DecidableEq, Repr

/-- The builtin type table (`initializeBuiltins`). -/
def builtinTypesInit : List (String × TypeDefinition) :=
  [("Date", ⟨[("year", "int"), ("month", "int"), ("day", "int")], none⟩),
   ("Time", ⟨[("hours", "int"), ("minutes", "int"), ("seconds", "int"),
              ("milliseconds", "int")], none⟩)]

/-- The builtin function table (`initializeBuiltins`), in `Map.set` order;
the source sets `isEven` twice and the second set overwrites in place. -/
def builtinFunctionsInit : List (String × FunctionType) :=
  [("print", ⟨[("value", "any")], "",
      some "Prints a value to the console.", none⟩),
   ("toString", ⟨[("value", "any")], "string",
      some "Converts a value to a string representation.", none⟩),
   ("input", ⟨[("prompt", "string")], "string",
      some "Reads a line of input from the user with the given prompt.", none⟩),
   ("now", ⟨[], "Date",
      some "Returns the current date as a Date object.", none⟩),
   ("formatDate", ⟨[("date", "Date")], "string",
      some "Formats a Date object as a string.", none⟩),
   ("createDate", ⟨[("year", "int"), ("month", "int"), ("day", "int")], "Date",
      some "Creates a new Date object with the specified year, month, and day.",
      none⟩),
   ("power", ⟨[("base", "int"), ("exp", "int")], "int",
      some "Calculates the power of a number (base^exp).", none⟩),
   ("isEven", ⟨[("num", "int")], "bool",
      some "Checks if a number is even.", none⟩),
   ("join", ⟨[("str1", "string"), ("str2", "string"), ("separator", "string")],
      "string", some "Joins two strings with a separator.", none⟩),
   ("currentYear", ⟨[], "int", some "Returns the current year.", none⟩),
   ("currentMonth", ⟨[], "int", some "Returns the current month (1-12).", none⟩),
   ("currentDay", ⟨[], "int",
      some "Returns the current day of the month.", none⟩),
   ("addDays", ⟨[("date", "Date"), ("days", "int")], "Date",
      some "Adds the specified number of days to a date.", none⟩),
   ("subtractDays", ⟨[("date", "Date"), ("days", "int")], "Date",
      some "Subtracts the specified number of days from a date.", none⟩),
   ("isLeapYear", ⟨[("year", "int")], "bool",
      some "Checks if a year is a leap year.", none⟩),
   ("daysInMonth", ⟨[("year", "int"), ("month", "int")], "int",
      some "Returns the number of days in the specified month.", none⟩),
   ("dayOfWeek", ⟨[("date", "Date")], "int",
      some "Returns the day of the week (0 = Sunday, 6 = Saturday).", none⟩)]

/-- A fresh tracker (constructor with defaults). -/
def initialTracker : TrackerState :=
  ⟨[], [("__builtin__", builtinFunctionsInit)],
   [("__builtin__", builtinTypesInit)], [], [], "", "", "./burn.exe"⟩

/-- `if (!m.has(k)) m.set(k, empty)`. -/
def ensureKey {α : Type} (m : List (String × α)) (k : String) (empty : α) :
    List (String × α) :=
  match alookup m k with
  | some _ => m
  | none => m ++ [(k, empty)]

/-- `map.get(k)?.clear()` (and `imports.length = 0`): empties the entry if
present, touches nothing otherwise. -/
def clearKey {α : Type} (m : List (String × List α)) (k : String) :
    List (String × List α) :=
  match alookup m k with
  | some _ => mapSet m k []
  | none => m

/-- `setCurrentFile`: records the current file and creates its five tables
when missing. -/
def setCurrentFile (st : TrackerState) (uri : String) : TrackerState :=
  { st with
    currentFile := uri,
    varTbl := ensureKey st.varTbl uri [],
    functions := ensureKey st.functions uri [],
    types := ensureKey st.types uri [],
    classes := ensureKey st.classes uri [],
    imports := ensureKey st.imports uri [] }

/-- `addVariable` (no-op when the current file has no table). -/
def addVariable (st : TrackerState) (name type : String)
    (range : DiagPos × DiagPos) (isConst : Bool) : TrackerState :=
  match alookup st.varTbl st.currentFile with
  | some m =>
    { st with varTbl :=
        mapSet st.varTbl st.currentFile (mapSet m name ⟨type, range, isConst⟩) }
  | none => st

/-- `addFunction`: stamps the declaration location, then stores. -/
def addFunction (st : TrackerState) (name : String) (ft : FunctionType)
    (range : DiagPos × DiagPos) : TrackerState :=
  match alookup st.functions st.currentFile with
  | some m =>
    let m2 := mapSet m name { ft with location := some (st.currentFile, range) }
    { st with functions := mapSet st.functions st.currentFile m2 }
  | none => st

/-- `addType`. -/
def addType (st : TrackerState) (typeName : String)
    (fields : List (String × String)) (range : DiagPos × DiagPos) :
    TrackerState :=
  match alookup st.types st.currentFile with
  | some m =>
    let m2 := mapSet m typeName ⟨fields, some (st.currentFile, range)⟩
    { st with types := mapSet st.types st.currentFile m2 }
  | none => st

/-- `addClass`: each method is stamped with the class range and stored
under its own method name. -/
def addClass (st : TrackerState) (methods : List (String × ClassMethod))
    (range : DiagPos × DiagPos) : TrackerState :=
  match alookup st.classes st.currentFile with
  | some cm =>
    let cm2 := methods.foldl
      (fun acc p =>
        mapSet acc p.1 { p.2 with location := some (st.currentFile, range) })
      cm
    { st with classes := mapSet st.classes st.currentFile cm2 }
  | none => st

/-- `getVariableType`: the current file's table, then files matching an
entry of the import list (`uri.includes(importPath)`), in import order. -/
def getVariableType (st : TrackerState) (name : String) : Option String :=
  match (alookup st.varTbl st.currentFile).bind (fun m => alookup m name) with
  | some vi => some vi.type
  | none =>
    ((alookup st.imports st.currentFile).getD []).findSome? fun ip =>
      st.varTbl.findSome? fun p =>
        if p.1 ≠ st.currentFile ∧ containsStr ip p.1 then
          (alookup p.2 name).map (fun vi => vi.type)
        else none

/-- `getFunction`: the current file's table, then the builtin table, then
files matching an entry of the import list. -/
def getFunction (st : TrackerState) (name : String) : Option FunctionType :=
  match (alookup st.functions st.currentFile).bind (fun m => alookup m name) with
  | some f => some f
  | none =>
    match (alookup st.functions "__builtin__").bind (fun m => alookup m name) with
    | some f => some f
    | none =>
      ((alookup st.imports st.currentFile).getD []).findSome? fun ip =>
        st.functions.findSome? fun p =>
          if p.1 ≠ st.currentFile ∧ containsStr ip p.1 then alookup p.2 name
          else none

/-- `getType`: the builtin table first, then the current file's table, then
files matching an entry of the import list. -/
def getType (st : TrackerState) (typeName : String) :
    Option (List (String × String)) :=
  match (alookup st.types "__builtin__").bind (fun m => alookup m typeName) with
  | some t => some t.fields
  | none =>
    match (alookup st.types st.currentFile).bind (fun m => alookup m typeName) with
    | some t => some t.fields
    | none =>
      ((alookup st.imports st.currentFile).getD []).findSome? fun ip =>
        st.types.findSome? fun p =>
          if p.1 ≠ st.currentFile ∧ containsStr ip p.1 then
            (alookup p.2 typeName).map (fun t => t.fields)
          else none

/-- Modelled from the spec: the four-tier lookup order the specification
describes for `get-function` — (1) the file's own table, (2) the builtin
table, (3) imported files' tables, (4) every other indexed file as a
last-resort fallback.  Used only to compare the source's `getFunction`
against the specified order. -/
def getFunctionSpec (st : TrackerState) (name : String) : Option FunctionType :=
  match (alookup st.functions st.currentFile).bind (fun m => alookup m name) with
  | some f => some f
  | none =>
    match (alookup st.functions "__builtin__").bind (fun m => alookup m name) with
    | some f => some f
    | none =>
      match
        ((alookup st.imports st.currentFile).getD []).findSome? fun ip =>
          st.functions.findSome? fun p =>
            if p.1 ≠ st.currentFile ∧ containsStr ip p.1 then alookup p.2 name
            else none
      with
      | some f => some f
      | none =>
        st.functions.findSome? fun p =>
          if p.1 ≠ st.currentFile ∧ p.1 ≠ "__builtin__" then alookup p.2 name
          else none

/-! ### Declaration extraction (`extractTypesAndFunctions...`) -/

/-- A match of `def\s+(name)\s*\{(body)\}` or `class\s+(name)\s*\{(body)\}`. -/
structure BodyMatch where
  name : String
  body : List Char
  idx : Nat
  stop : Nat
deriving DecidableEq, Repr

/-- A match of the function-header regex. -/
structure FunMatch where
  name : String
  params : List Char
  ret : String
  idx : Nat
  stop : Nat
deriving DecidableEq, Repr

/-- A match of the typechecker's variable-declaration regex. -/
structure VarMatch where
  isConst : Bool
  name : String
  declType : String
  value : List Char
  idx : Nat
  stop : Nat
deriving DecidableEq, Repr

/-- The optional group `\s*:\s*([a-zA-Z_][a-zA-Z0-9_]*)` with its capture. -/
def typeAnnRetAt (text : List Char) (p : Nat) : Option (String × Nat) :=
  let a1 := runWhile isSpaceJS text p
  if charAt text a1 = some ':' then
    let a2 := runWhile isSpaceJS text (a1 + 1)
    identAt text a2
  else none

/-- One attempt of `<kw>\s+([a-zA-Z_][a-zA-Z0-9_]*)\s*\{([^}]*)\}`
(used with `def` and `class`; the greedy `[^}]*` runs to the next `}`). -/
def bodyDeclTryAt (kw : List Char) (text : List Char) (i : Nat) :
    Option (BodyMatch × Nat) :=
  match litAt text i kw with
  | none => none
  | some kEnd =>
    match spacesReq text kEnd with
    | none => none
    | some s1 =>
      match identAt text s1 with
      | none => none
      | some (nm, e) =>
        let b := runWhile isSpaceJS text e
        if charAt text b = some '{' then
          let be := runWhile (fun c => c ≠ '}') text (b + 1)
          if be < text.length then
            some (⟨nm, subRange text (b + 1) be, i, be + 1⟩, be + 1)
          else none
        else none

def typeScanT (text : List Char) : List BodyMatch :=
  scanA (bodyDeclTryAt ("def".data)) text (text.length + 1) 0

def classScanT (text : List Char) : List BodyMatch :=
  scanA (bodyDeclTryAt ("class".data)) text (text.length + 1) 0

/-- One attempt of
`fun\s+([a-zA-Z_][a-zA-Z0-9_]*)\s*\(([^)]*)\)(?:\s*:\s*([a-zA-Z_][a-zA-Z0-9_]*))?\s*\{`:
the optional return annotation backtracks against the required `\s*\{`. -/
def funDeclTryAt (text : List Char) (i : Nat) : Option (FunMatch × Nat) :=
  match litAt text i ("fun".data) with
  | none => none
  | some kEnd =>
    match spacesReq text kEnd with
    | none => none
    | some s1 =>
      match identAt text s1 with
      | none => none
      | some (nm, e) =>
        let p := runWhile isSpaceJS text e
        if charAt text p = some '(' then
          let r := runWhile (fun c => c ≠ ')') text (p + 1)
          if r < text.length then
            let params := subRange text (p + 1) r
            let withAnn :=
              match typeAnnRetAt text (r + 1) with
              | some (ret, ae) =>
                let b := runWhile isSpaceJS text ae
                if charAt text b = some '{' then some (ret, b + 1) else none
              | none => none
            let fin :=
              match withAnn with
              | some x => some x
              | none =>
                let b := runWhile isSpaceJS text (r + 1)
                if charAt text b = some '{' then some ("", b + 1) else none
            match fin with
            | some (ret, stop) => some (⟨nm, params, ret, i, stop⟩, stop)
            | none => none
          else none
        else none

def funScanT (text : List Char) : List FunMatch :=
  scanA funDeclTryAt text (text.length + 1) 0

/-- `fieldsText.split(',')` with per-entry `trim().split(':')`: entries
that do not split into exactly two parts are skipped. -/
def parseFields (body : List Char) : List (String × String) :=
  let ft := trimJS body
  if ft = [] then []
  else
    (splitOnChar ',' ft).foldl
      (fun fields entry =>
        match splitOnChar ':' (trimJS entry) with
        | [a, b] => mapSet fields ⟨trimJS a⟩ ⟨trimJS b⟩
        | _ => fields)
      []

/-- `paramsText.split(',')` with per-entry `trim().split(':')`, pushing
only two-part entries. -/
def parseParams (cap : List Char) : List (String × String) :=
  let t := trimJS cap
  if t = [] then []
  else
    (splitOnChar ',' t).filterMap fun entry =>
      match splitOnChar ':' (trimJS entry) with
      | [a, b] => some ((⟨trimJS a⟩ : String), (⟨trimJS b⟩ : String))
      | _ => none

/-- The method map of one class body (the inner `methodRegex` loop). -/
def methodsOf (m : BodyMatch) : List (String × ClassMethod) :=
  (funScanT m.body).foldl
    (fun acc mm =>
      mapSet acc mm.name ⟨parseParams mm.params, mm.ret, m.name, none, none⟩)
    []

/-- Lazy value `(.+?)(?:[;\n,]|$)` expansion: from candidate end `e`
(value runs from its start to `e`), stop at the first terminator or end of
input; a carriage return can be neither consumed nor a terminator. -/
def lazyValueEnd (text : List Char) : Nat → Nat → Option (Nat × Nat)
  | 0, _ => none
  | fuel + 1, e =>
    if e = text.length then some (e, e)
    else
      match charAt text e with
      | none => some (e, e)
      | some c =>
        if c = ';' ∨ c = '\n' ∨ c = ',' then some (e, e + 1)
        else if c = '\r' then none
        else lazyValueEnd text fuel (e + 1)

/-- Attempt the value part starting exactly at `v` (needs one consumable
character first). -/
def valueFrom (text : List Char) (v : Nat) : Option (Nat × Nat) :=
  match charAt text v with
  | some c0 =>
    if c0 = '\n' ∨ c0 = '\r' then none
    else
      match lazyValueEnd text (text.length + 1) (v + 1) with
      | some (ve, me) => some (ve, me)
      | none => none
  | none => none

/-- The greedy `\s*` before the value backtracks from its maximal run:
`k` counts how many extra whitespace characters it keeps. -/
def valueBacktrack (text : List Char) (base : Nat) :
    Nat → Option (Nat × Nat × Nat)
  | 0 =>
    match valueFrom text base with
    | some (ve, me) => some (base, ve, me)
    | none => none
  | k + 1 =>
    match valueFrom text (base + k + 1) with
    | some (ve, me) => some (base + k + 1, ve, me)
    | none => valueBacktrack text base k

/-- `\s*=\s*(.+?)(?:[;\n,]|$)` at `p`: yields (value start, value end,
match end). -/
def eqValueAt (text : List Char) (p : Nat) : Option (Nat × Nat × Nat) :=
  let e1 := runWhile isSpaceJS text p
  if charAt text e1 = some '=' then
    let base := e1 + 1
    let smax := runWhile isSpaceJS text base
    valueBacktrack text base (smax - base)
  else none

/-- One attempt of the typechecker's
`(var|const)\s+([a-zA-Z_][a-zA-Z0-9_]*)(?:\s*:\s*([a-zA-Z_][a-zA-Z0-9_]*))?\s*=\s*(.+?)(?:[;\n,]|$)`. -/
def varDeclTTryAt (text : List Char) (i : Nat) : Option (VarMatch × Nat) :=
  let kw :=
    match litAt text i ("var".data) with
    | some e => some (false, e)
    | none =>
      match litAt text i ("const".data) with
      | some e => some (true, e)
      | none => none
  match kw with
  | none => none
  | some (isC, kEnd) =>
    match spacesReq text kEnd with
    | none => none
    | some s1 =>
      match identAt text s1 with
      | none => none
      | some (nm, j2) =>
        let tryRest := fun (declType : String) (p : Nat) =>
          match eqValueAt text p with
          | some (v, ve, me) =>
            some ((⟨isC, nm, declType, subRange text v ve, i, me⟩ : VarMatch), me)
          | none => none
        match typeAnnRetAt text j2 with
        | some (dt, a) =>
          match tryRest dt a with
          | some m => some m
          | none => tryRest "" j2
        | none => tryRest "" j2

def varScanT (text : List Char) : List VarMatch :=
  scanA varDeclTTryAt text (text.length + 1) 0

/-- One attempt of `import\s+["']([^"']+)["']` (the closing quote need not
match the opening one, exactly as in the source regex). -/
def importTryAt (text : List Char) (i : Nat) : Option (String × Nat) :=
  match litAt text i ("import".data) with
  | none => none
  | some kEnd =>
    match spacesReq text kEnd with
    | none => none
    | some s1 =>
      match charAt text s1 with
      | some q =>
        if q = '"' ∨ q = '\'' then
          let e := runWhile (fun c => c ≠ '"' ∧ c ≠ '\'') text (s1 + 1)
          if s1 + 1 < e then
            match charAt text e with
            | some q2 =>
              if q2 = '"' ∨ q2 = '\'' then
                some ((⟨subRange text (s1 + 1) e⟩ : String), e + 1)
              else none
            | none => none
          else none
        else none
      | none => none

def importScanT (text : List Char) : List String :=
  scanA importTryAt text (text.length + 1) 0

/-- First match of `([a-zA-Z_][a-zA-Z0-9_]*)\s*\(` inside a value. -/
def funCallTryAt (cs : List Char) (p : Nat) : Option String :=
  match charAt cs p with
  | some c =>
    if isIdentStart c then
      let q := runWhile isIdentChar cs (p + 1)
      let s := runWhile isSpaceJS cs q
      if charAt cs s = some '(' then some ⟨subRange cs p q⟩ else none
    else none
  | none => none

/-- Fuelled first-match scan. -/
def scanFirst {α : Type} (tryAt : List Char → Nat → Option α)
    (text : List Char) : Nat → Nat → Option α
  | 0, _ => none
  | fuel + 1, i =>
    if i < text.length then
      match tryAt text i with
      | some a => some a
      | none => scanFirst tryAt text fuel (i + 1)
    else none

def funCallIn (cs : List Char) : Option String :=
  scanFirst funCallTryAt cs (cs.length + 1) 0

/-- `/^-?\d+$/`. -/
def isIntLit (cs : List Char) : Bool :=
  let b := match cs with
    | '-' :: rest => rest
    | other => other
  ¬b.isEmpty && b.all isDigitJS

/-- `/^-?\d+\.\d+$/`. -/
def isFloatLit (cs : List Char) : Bool :=
  let b := match cs with
    | '-' :: rest => rest
    | other => other
  let d1 := b.takeWhile isDigitJS
  let rest := b.drop d1.length
  ¬d1.isEmpty &&
    (match rest with
     | '.' :: d2 => ¬d2.isEmpty && d2.all isDigitJS
     | _ => false)

/-- The right-hand-side type inference of the variable extractor
(`varValue` is already trimmed). -/
def inferType (st : TrackerState) (varValue : List Char) : String :=
  if varValue = ("true".data) ∨ varValue = ("false".data) then "bool"
  else if ((match varValue with | c :: _ => c == '"' | [] => false) &&
      (match varValue.getLast? with | some c => c == '"' | none => false)) = true then
    "string"
  else if isIntLit varValue then "int"
  else if isFloatLit varValue then "float"
  else if varValue = ("nil".data) then "nil"
  else
    match funCallIn varValue with
    | some called =>
      if called = "input" then "string"
      else
        match getFunction st called with
        | some ft => if ft.returnType ≠ "" then ft.returnType else ""
        | none => ""
    | none => ""

/-- One type-declaration match folded into the tracker. -/
def typeStep (text : List Char) (s : TrackerState) (m : BodyMatch) :
    TrackerState :=
  addType s m.name (parseFields m.body)
    (positionAt text m.idx, positionAt text m.stop)

/-- One function-header match folded into the tracker. -/
def funStep (text : List Char) (s : TrackerState) (m : FunMatch) :
    TrackerState :=
  addFunction s m.name ⟨parseParams m.params, m.ret, none, none⟩
    (positionAt text m.idx, positionAt text m.stop)

/-- One class-declaration match folded into the tracker. -/
def classStep (text : List Char) (s : TrackerState) (m : BodyMatch) :
    TrackerState :=
  addClass s (methodsOf m) (positionAt text m.idx, positionAt text m.stop)

/-- One variable-declaration match folded into the tracker: explicit
annotation wins, otherwise the right-hand side is inferred against the
current state. -/
def varStep (text : List Char) (s : TrackerState) (m : VarMatch) :
    TrackerState :=
  let varValue := trimJS m.value
  let inferred := inferType s varValue
  let finalType := if m.declType ≠ "" then m.declType else inferred
  addVariable s m.name finalType
    (positionAt text m.idx, positionAt text m.stop) m.isConst

/-- `extractTypesAndFunctionsFromText`: re-targets `currentFile` to `uri`
(creating missing tables, *without clearing existing ones*), extracts
types, functions and classes from `text`, and restores the previous
current file. -/
def extractText (st : TrackerState) (text : List Char) (uri : String) :
    TrackerState :=
  let prev := st.currentFile
  let st1 := setCurrentFile st uri
  let st2 := (typeScanT text).foldl (typeStep text) st1
  let st3 := (funScanT text).foldl (funStep text) st2
  let st4 := (classScanT text).foldl (classStep text) st3
  { st4 with currentFile := prev }

/-- The import-resolution environment: `parseImportedFile`'s path
resolution (std-library prefix, relative join, `.bn` appending) and
filesystem read, abstracted to a function from the import path to the
resolved file's URI and content; `none` models a missing file or a read
error (both swallowed by the source). -/
def ResolveOracle : Type := String → Option (String × List Char)

/-- `addImport`: appends the path to the current file's import list, then
`parseImportedFile` indexes the resolved file (if any) under its own URI. -/
def addImport (resolve : ResolveOracle) (st : TrackerState) (p : String) :
    TrackerState :=
  match alookup st.imports st.currentFile with
  | some l =>
    let st := { st with imports := mapSet st.imports st.currentFile (l ++ [p]) }
    match resolve p with
    | some (uri, content) => extractText st content uri
    | none => st
  | none => st

/-- `extractTypesAndFunctionsFromDocument`: clears the five per-URI tables,
then processes imports, type declarations, function headers, classes and
variable declarations of the new text, in that order. -/
def extractDoc (resolve : ResolveOracle) (st : TrackerState) (uri : String)
    (text : List Char) : TrackerState :=
  let st1 := { st with
    varTbl := clearKey st.varTbl uri,
    functions := clearKey st.functions uri,
    types := clearKey st.types uri,
    classes := clearKey st.classes uri,
    imports := clearKey st.imports uri }
  let st2 := (importScanT text).foldl (addImport resolve) st1
  let st3 := (typeScanT text).foldl (typeStep text) st2
  let st4 := (funScanT text).foldl (funStep text) st3
  let st5 := (classScanT text).foldl (classStep text) st4
  (varScanT text).foldl (varStep text) st5

/-- The indexing part of `parseDocument`: `setCurrentFile` followed by
`extractTypesAndFunctionsFromDocument` (the compiler call that follows in
the source only produces diagnostics and is handled by the pipeline's
oracles). -/
def parseDocumentIndex (resolve : ResolveOracle) (st : TrackerState)
    (doc : TextDoc) : TrackerState :=
  extractDoc resolve (setCurrentFile st doc.uri) doc.uri doc.text

/-- Import resolution that finds nothing. -/
def noImports : ResolveOracle := fun _ => none

example :
    (alookup
      (parseDocumentIndex noImports initialTracker
        ⟨"file:///m.bn", 1, "def Point \x7b x: int, y \x7d".data⟩).types
      "file:///m.bn").map (fun m => m.map fun p => (p.1, p.2.fields)) =
      some [("Point", [("x", "int")])] := by
  decide

example :
    getVariableType
      (parseDocumentIndex noImports initialTracker
        ⟨"file:///m.bn", 1, "var s: string = 5\nvar n = now()".data⟩)
      "s" = some "string" := by
  decide

example :
    getVariableType
      (parseDocumentIndex noImports initialTracker
        ⟨"file:///m.bn", 1, "var s: string = 5\nvar n = now()".data⟩)
      "n" = some "Date" := by
  decide

/-! ## The compiler-output parser (`parseCompilerErrors` in
`typechecker.ts`) -/

/-- Digits `\d+` (greedy) at `p`: the parsed value and the end index. -/
def digitsAt (text : List Char) (p : Nat) : Option (Nat × Nat) :=
  let e := runWhile isDigitJS text p
  if p < e then
    some ((subRange text p e).foldl (fun a c => a * 10 + (c.toNat - 48)) 0, e)
  else none

/-- `.` of JS regexes: anything but a line terminator. -/
def isDotChar (c : Char) : Bool :=
  ¬(c = '\n' ∨ c = '\r')

/-- ` at line (\d+), column (\d+)` minus its leading literal: parse
`(\d+), column (\d+)` at `p`. -/
def lineColAt (text : List Char) (p : Nat) : Option (Nat × Nat × Nat) :=
  match digitsAt text p with
  | some (d1, e1) =>
    match litAt text e1 (", column ".data) with
    | some e2 =>
      match digitsAt text e2 with
      | some (d2, e3) => some (d1, d2, e3)
      | none => none
    | none => none
  | none => none

/-- One attempt of
`(lexical|syntax|type|runtime) error at line (\d+), column (\d+): (.+)`. -/
def errPatTryAt (text : List Char) (i : Nat) :
    Option ((String × Nat × Nat × String) × Nat) :=
  let kindM := (["lexical", "syntax", "type", "runtime"].map
    (fun s => (s, s.data))).findSome? fun p =>
      (litAt text i p.2).map fun e => (p.1, e)
  match kindM with
  | none => none
  | some (kind, wEnd) =>
    match litAt text wEnd (" error at line ".data) with
    | none => none
    | some p1 =>
      match lineColAt text p1 with
      | none => none
      | some (ln, col, p2) =>
        match litAt text p2 (": ".data) with
        | none => none
        | some p3 =>
          let me := runWhile isDotChar text p3
          if p3 < me then
            some ((kind, ln, col, ⟨subRange text p3 me⟩), me)
          else none

def errPatScan (text : List Char) : List (String × Nat × Nat × String) :=
  scanA errPatTryAt text (text.length + 1) 0

/-- Backtracking for a greedy `(.+)` capture followed by
`'<sep> at line (\d+), column (\d+)`: the longest capture whose tail
parses wins. -/
def quoteCapBack (text : List Char) (capStart : Nat) (sep : List Char) :
    Nat → Option ((String × Nat × Nat × Nat) × Nat)
  | 0 => none
  | k + 1 =>
    let capEnd := capStart + k + 1
    match litAt text capEnd sep with
    | some p1 =>
      match lineColAt text p1 with
      | some (ln, col, e) => some ((⟨subRange text capStart capEnd⟩, ln, col, e), e)
      | none => quoteCapBack text capStart sep k
    | none => quoteCapBack text capStart sep k

/-- One attempt of `<lead>'(.+)' at line (\d+), column (\d+)` where `lead`
is `unexpected token ` or `undefined variable `. -/
def quotePatTryAt (lead : List Char) (text : List Char) (i : Nat) :
    Option ((String × Nat × Nat) × Nat) :=
  match litAt text i (lead ++ ['\x27']) with
  | none => none
  | some capStart =>
    let maxEnd := runWhile isDotChar text capStart
    match quoteCapBack text capStart ("\x27 at line ".data) (maxEnd - capStart) with
    | some ((tok, ln, col, _), e) => some ((tok, ln, col), e)
    | none => none

def tokenPatScan (text : List Char) : List (String × Nat × Nat) :=
  scanA (quotePatTryAt ("unexpected token ".data)) text (text.length + 1) 0

def undefVarPatScan (text : List Char) : List (String × Nat × Nat) :=
  scanA (quotePatTryAt ("undefined variable ".data)) text (text.length + 1) 0

/-- Inner backtracking of the second capture of the type-mismatch regex. -/
def mismatchInner (text : List Char) (s2 : Nat) :
    Option ((String × Nat × Nat × Nat) × Nat) :=
  let maxEnd2 := runWhile isDotChar text s2
  quoteCapBack text s2 ("\x27 at line ".data) (maxEnd2 - s2)

/-- Outer backtracking of the first capture of
`type mismatch: expected '(.+)', got '(.+)' at line (\d+), column (\d+)`. -/
def mismatchBack (text : List Char) (s1 : Nat) :
    Nat → Option ((String × String × Nat × Nat) × Nat)
  | 0 => none
  | k + 1 =>
    let e1 := s1 + k + 1
    match litAt text e1 ("\x27, got \x27".data) with
    | some s2 =>
      match mismatchInner text s2 with
      | some ((got, ln, col, _), e) =>
        some ((⟨subRange text s1 e1⟩, got, ln, col), e)
      | none => mismatchBack text s1 k
    | none => mismatchBack text s1 k

def mismatchTryAt (text : List Char) (i : Nat) :
    Option ((String × String × Nat × Nat) × Nat) :=
  match litAt text i ("type mismatch: expected \x27".data) with
  | none => none
  | some s1 =>
    let maxEnd1 := runWhile isDotChar text s1
    mismatchBack text s1 (maxEnd1 - s1)

def mismatchPatScan (text : List Char) : List (String × String × Nat × Nat) :=
  scanA mismatchTryAt text (text.length + 1) 0

/-- `document.getText().split('\n')[line] || ''`. -/
def lineAt (doc : List Char) (line : Int) : List Char :=
  let lines := splitOnChar '\n' doc
  if 0 ≤ line ∧ line < (lines.length : Int) then lines.getD line.toNat []
  else []

/-- `getErrorTokenLength`: widens a column to the identifier-character run
starting there (at least 1). -/
def getErrorTokenLength (lineText : List Char) (column : Int) : Int :=
  if column ≥ (lineText.length : Int) then 1
  else
    let e : Int :=
      if column < 0 then column else (runWhile isIdentChar lineText column.toNat : Int)
    max 1 (e - column)

/-- The character class `[a-zA-Z0-9_.()[\]{}]` of `getExpressionLength`. -/
def isExprChar (c : Char) : Bool :=
  isIdentChar c || c = '.' || c = '(' || c = ')' || c = '[' || c = ']' ||
    c = '{' || c = '}'

/-- `getExpressionLength` (JS `slice` wraps a negative start). -/
def getExpressionLength (lineText : List Char) (column : Int) : Int :=
  if column ≥ (lineText.length : Int) then 1
  else
    let start : Nat :=
      if column < 0 then (max 0 ((lineText.length : Int) + column)).toNat
      else column.toNat
    let e := runWhile isExprChar lineText start
    if start < e then ((e - start : Nat) : Int) else 1

/-- One attempt of the case-insensitive fallback regex `error:?\s+(.+)`:
the greedy `\s+` backtracks until `(.+)` has a first character. -/
def genSpacesBack (text : List Char) (q : Nat) : Nat → Option (Nat × Nat)
  | 0 => none
  | k + 1 =>
    let s := q + k + 1
    match charAt text s with
    | some c =>
      if c = '\n' ∨ c = '\r' then genSpacesBack text q k
      else some (s, runWhile isDotChar text s)
    | none => genSpacesBack text q k

def genericTryAt (text : List Char) (i : Nat) : Option String :=
  if (subRange text i (i + 5)).map charLower = ("error".data) ∧
      i + 5 ≤ text.length then
    let q := if charAt text (i + 5) = some ':' then i + 6 else i + 5
    let smax := runWhile isSpaceJS text q
    match genSpacesBack text q (smax - q) with
    | some (s, e) => some ⟨subRange text s e⟩
    | none => none
  else none

/-- `genericErrorMatch`: the first match's capture, if any. -/
def genericMatch (text : List Char) : Option String :=
  scanFirst genericTryAt text (text.length + 1) 0

/-- `parseCompilerErrors(output, diagnostics, document)`: the four pattern
loops in source order, then the document-start generic fallback when they
produced nothing and the output is non-blank. -/
def parseCompilerErrors (output : List Char) (doc : List Char) : List Diag :=
  let d1 := (errPatScan output).map fun (kind, ln, col, msg) =>
    let line : Int := (ln : Int) - 1
    let c : Int := (col : Int) - 1
    let lineText := lineAt doc line
    let errorLength := getErrorTokenLength lineText c
    (⟨Sev.err, ⟨line, c⟩, ⟨line, c + errorLength⟩,
      kind ++ " error: " ++ msg, "burn-compiler"⟩ : Diag)
  let d2 := (tokenPatScan output).map fun (tok, ln, col) =>
    let line : Int := (ln : Int) - 1
    let c : Int := (col : Int) - 1
    (⟨Sev.err, ⟨line, c⟩, ⟨line, c + (tok.length : Int)⟩,
      "Unexpected token \x27" ++ tok ++ "\x27", "burn-syntax"⟩ : Diag)
  let d3 := (undefVarPatScan output).map fun (v, ln, col) =>
    let line : Int := (ln : Int) - 1
    let c : Int := (col : Int) - 1
    (⟨Sev.err, ⟨line, c⟩, ⟨line, c + (v.length : Int)⟩,
      "Undefined variable \x27" ++ v ++ "\x27", "burn-semantics"⟩ : Diag)
  let d4 := (mismatchPatScan output).map fun (exp, got, ln, col) =>
    let line : Int := (ln : Int) - 1
    let c : Int := (col : Int) - 1
    let lineText := lineAt doc line
    let errorLength := getExpressionLength lineText c
    (⟨Sev.err, ⟨line, c⟩, ⟨line, c + errorLength⟩,
      "Type mismatch: expected \x27" ++ exp ++ "\x27, got \x27" ++ got ++ "\x27",
      "burn-type"⟩ : Diag)
  let ds := d1 ++ d2 ++ d3 ++ d4
  if ds = [] ∧ trimJS output ≠ [] then
    match genericMatch output with
    | some m =>
      [⟨Sev.err, ⟨0, 0⟩, ⟨0, 1⟩, ⟨trimJS m.data⟩, "burn-compiler"⟩]
    | none => []
  else ds

example :
    parseCompilerErrors ("syntax error at line 3, column 5: unexpected token".data)
      ("var a = 1\nvar b = 2\nvar cc = a ++ b\n".data) =
      [⟨Sev.err, ⟨2, 4⟩, ⟨2, 6⟩, "syntax error: unexpected token",
        "burn-compiler"⟩] := by
  decide

example :
    parseCompilerErrors ("segmentation fault".data) ("var a = 1".data) = [] := by
  decide

example :
    parseCompilerErrors ("weird error: something odd".data) ("var a = 1".data) =
      [⟨Sev.err, ⟨0, 0⟩, ⟨0, 1⟩, "something odd", "burn-compiler"⟩] := by
  decide

/-! ## Temporary-file naming (`getTempFilePath` in `utils.ts`) -/

/-- The 64 MD5 sine constants. -/
def md5K : List Nat :=
  [0xd76aa478, 0xe8c7b756, 0x242070db, 0xc1bdceee, 0xf57c0faf, 0x4787c62a,
   0xa8304613, 0xfd469501, 0x698098d8, 0x8b44f7af, 0xffff5bb1, 0x895cd7be,
   0x6b901122, 0xfd987193, 0xa679438e, 0x49b40821, 0xf61e2562, 0xc040b340,
   0x265e5a51, 0xe9b6c7aa, 0xd62f105d, 0x02441453, 0xd8a1e681, 0xe7d3fbc8,
   0x21e1cde6, 0xc33707d6, 0xf4d50d87, 0x455a14ed, 0xa9e3e905, 0xfcefa3f8,
   0x676f02d9, 0x8d2a4c8a, 0xfffa3942, 0x8771f681, 0x6d9d6122, 0xfde5380c,
   0xa4beea44, 0x4bdecfa9, 0xf6bb4b60, 0xbebfbc70, 0x289b7ec6, 0xeaa127fa,
   0xd4ef3085, 0x04881d05, 0xd9d4d039, 0xe6db99e5, 0x1fa27cf8, 0xc4ac5665,
   0xf4292244, 0x432aff97, 0xab9423a7, 0xfc93a039, 0x655b59c3, 0x8f0ccc92,
   0xffeff47d, 0x85845dd1, 0x6fa87e4f, 0xfe2ce6e0, 0xa3014314, 0x4e0811a1,
   0xf7537e82, 0xbd3af235, 0x2ad7d2bb, 0xeb86d391]

/-- The per-round left-rotation amounts. -/
def md5S : List Nat :=
  [7, 12, 17, 22, 7, 12, 17, 22, 7, 12, 17, 22, 7, 12, 17, 22,
   5, 9, 14, 20, 5, 9, 14, 20, 5, 9, 14, 20, 5, 9, 14, 20,
   4, 11, 16, 23, 4, 11, 16, 23, 4, 11, 16, 23, 4, 11, 16, 23,
   6, 10, 15, 21, 6, 10, 15, 21, 6, 10, 15, 21, 6, 10, 15, 21]

def md5rotl (x s : Nat) : Nat :=
  ((x <<< s) % 4294967296) ||| (x >>> (32 - s))

/-- The 64 rounds on one block (`m` holds the 16 message words). -/
def md5Rounds (m : List Nat) : Nat → Nat → (Nat × Nat × Nat × Nat) →
    (Nat × Nat × Nat × Nat)
  | 0, _, st => st
  | fuel + 1, r, (a, b, c, d) =>
    let f :=
      if r < 16 then (b &&& c) ||| ((b ^^^ 0xffffffff) &&& d)
      else if r < 32 then (d &&& b) ||| ((d ^^^ 0xffffffff) &&& c)
      else if r < 48 then b ^^^ c ^^^ d
      else c ^^^ (b ||| (d ^^^ 0xffffffff))
    let g :=
      if r < 16 then r
      else if r < 32 then (5 * r + 1) % 16
      else if r < 48 then (3 * r + 5) % 16
      else (7 * r) % 16
    let x := (a + f + md5K.getD r 0 + m.getD g 0) % 4294967296
    let b2 := (b + md5rotl x (md5S.getD r 0)) % 4294967296
    md5Rounds m fuel (r + 1) (d, b2, b, c)

/-- Process the padded byte stream block by block. -/
def md5Blocks : Nat → List Nat → (Nat × Nat × Nat × Nat) →
    (Nat × Nat × Nat × Nat)
  | 0, _, st => st
  | fuel + 1, bytes, (a0, b0, c0, d0) =>
    match bytes with
    | [] => (a0, b0, c0, d0)
    | _ =>
      let blk := bytes.take 64
      let m := (List.range 16).map fun w =>
        blk.getD (4 * w) 0 + 256 * blk.getD (4 * w + 1) 0 +
          65536 * blk.getD (4 * w + 2) 0 + 16777216 * blk.getD (4 * w + 3) 0
      let (a, b, c, d) := md5Rounds m 64 0 (a0, b0, c0, d0)
      md5Blocks fuel (bytes.drop 64)
        ((a0 + a) % 4294967296, (b0 + b) % 4294967296,
         (c0 + c) % 4294967296, (d0 + d) % 4294967296)

/-- MD5 padding: `0x80`, zeros to 56 mod 64, 64-bit little-endian length. -/
def md5Pad (msg : List Nat) : List Nat :=
  let len := msg.length
  let z := (119 - len % 64) % 64
  msg ++ [0x80] ++ List.replicate z 0 ++
    ((List.range 8).map fun k => (8 * len >>> (8 * k)) % 256)

def hexDigit (n : Nat) : Char :=
  if n < 10 then Char.ofNat (48 + n) else Char.ofNat (87 + n)

def byteHex (b : Nat) : List Char :=
  [hexDigit (b / 16), hexDigit (b % 16)]

def wordHexLE (w : Nat) : List Char :=
  byteHex (w % 256) ++ byteHex ((w >>> 8) % 256) ++
    byteHex ((w >>> 16) % 256) ++ byteHex ((w >>> 24) % 256)

/-- `crypto.createHash('md5').update(uri).digest('hex')` (URIs are ASCII,
so UTF-8 bytes are the character codes). -/
def md5hex (s : String) : String :=
  let bytes := s.data.map Char.toNat
  let padded := md5Pad bytes
  let (a, b, c, d) :=
    md5Blocks (padded.length / 64 + 1) padded
      (0x67452301, 0xefcdab89, 0x98badcfe, 0x10325476)
  ⟨wordHexLE a ++ wordHexLE b ++ wordHexLE c ++ wordHexLE d⟩

/-- `getTempFilePath(uri, extension)`: `os.tmpdir()` (here `/tmp`) joined
with `burn-<md5(uri)><extension>`.  The name depends on nothing but the
URI and the extension. -/
def getTempFilePath (uri : String) (extension : String) : String :=
  "/tmp/" ++ "burn-" ++ md5hex uri ++ extension

/-- The temp path used by one `validateWithCompiler` invocation for a
document (the source passes `document.uri` and the default `.bn`). -/
def tempPathOf (doc : TextDoc) : String :=
  getTempFilePath doc.uri ".bn"

example : md5hex "abc" = "900150983cd24fb0d6963f7d28e17f72" := by decide

/-! ## Association-list lemmas -/

theorem alookup_mapSet_self {α : Type} (m : List (String × α)) (k : String)
    (v : α) : alookup (mapSet m k v) k = some v := by
  induction m with
  | nil => simp [mapSet, alookup]
  | cons h t ih =>
    obtain ⟨k', v'⟩ := h
    by_cases hk : k' = k
    · simp [mapSet, alookup, hk]
    · simp [mapSet, alookup, hk, ih]

theorem alookup_mapSet_ne {α : Type} (m : List (String × α)) (k k' : String)
    (v : α) (h : k' ≠ k) : alookup (mapSet m k v) k' = alookup m k' := by
  induction m with
  | nil => simp [mapSet, alookup, Ne.symm h]
  | cons hd t ih =>
    obtain ⟨k0, v0⟩ := hd
    by_cases hk : k0 = k
    · subst hk
      simp [mapSet, alookup, Ne.symm h]
    · simp [mapSet, alookup, hk, ih]

theorem alookup_append {α : Type} (m1 m2 : List (String × α)) (k : String) :
    alookup (m1 ++ m2) k =
      match alookup m1 k with
      | some v => some v
      | none => alookup m2 k := by
  induction m1 with
  | nil => simp [alookup]
  | cons hd t ih =>
    obtain ⟨k0, v0⟩ := hd
    by_cases hk : k0 = k
    · simp [alookup, hk]
    · simp [alookup, hk, ih]

theorem findSome?_congr {α β : Type} (l : List α) (f g : α → Option β)
    (h : ∀ a ∈ l, f a = g a) : l.findSome? f = l.findSome? g := by
  induction l with
  | nil => rfl
  | cons hd t ih =>
    rw [List.findSome?_cons, List.findSome?_cons, h hd (by simp)]
    cases g hd with
    | some v => rfl
    | none => exact ih fun a ha => h a (by simp [ha])

theorem findSome?_append {α β : Type} (l1 l2 : List α) (f : α → Option β) :
    (l1 ++ l2).findSome? f =
      match l1.findSome? f with
      | some v => some v
      | none => l2.findSome? f := by
  induction l1 with
  | nil => simp [List.findSome?]
  | cons hd t ih =>
    rw [List.cons_append, List.findSome?_cons, List.findSome?_cons]
    cases f hd with
    | some v => rfl
    | none => simpa using ih

theorem mem_fst_mapSet {α : Type} (m : List (String × α)) (k nm : String)
    (v : α) (h : nm ∈ (mapSet m k v).map Prod.fst) :
    nm ∈ m.map Prod.fst ∨ nm = k := by
  induction m with
  | nil =>
    simp [mapSet] at h
    exact Or.inr h
  | cons hd t ih =>
    obtain ⟨k0, v0⟩ := hd
    by_cases hk : k0 = k
    · rw [show mapSet ((k0, v0) :: t) k v = (k0, v) :: t by
        simp [mapSet, hk]] at h
      rw [List.map_cons, List.mem_cons] at h
      rcases h with h | h
      · exact Or.inr (h.trans hk)
      · exact Or.inl (by rw [List.map_cons, List.mem_cons]; exact Or.inr h)
    · rw [show mapSet ((k0, v0) :: t) k v = (k0, v0) :: mapSet t k v by
        simp [mapSet, hk]] at h
      rw [List.map_cons, List.mem_cons] at h
      rcases h with h | h
      · exact Or.inl (by rw [List.map_cons, List.mem_cons]; exact Or.inl h)
      · rcases ih h with h2 | h2
        · exact Or.inl (by rw [List.map_cons, List.mem_cons]; exact Or.inr h2)
        · exact Or.inr h2

/-- Generic invariant preservation along a left fold. -/
theorem foldl_inv {α β : Type} (P : α → Prop) (f : α → β → α) :
    ∀ (l : List β) (s : α), (∀ s' b, b ∈ l → P s' → P (f s' b)) → P s →
      P (l.foldl f s)
  | [], s, _, hs => hs
  | b :: t, s, hstep, hs =>
    foldl_inv P f t (f s b) (fun s' b' hb' => hstep s' b' (by simp [hb']))
      (hstep s b (by simp) hs)

/-- The cache written by a pipeline run holds the document's version and
exactly the published diagnostics. -/
theorem runPipeline_newCache (orc : Oracles) (cache : List (String × CacheEntry))
    (doc : TextDoc) :
    (runPipeline orc cache doc).newCache =
      mapSet cache doc.uri ⟨doc.version, (runPipeline orc cache doc).published⟩ := by
  unfold runPipeline
  cases hc : (checkSyn doc.text).any isCritical <;> simp [hc]

/-! ## Claim theorems -/

/-- C2: a cache entry whose stored version equals the document's current
version short-circuits validation — exactly the cached list is published,
the cache is untouched, and no stage (type tracker, semantics, compiler)
runs; any version mismatch re-runs the pipeline and overwrites the entry
with the new version and diagnostics; consequently a second validation of
the same version republishes the first run's diagnostics byte-for-byte
without invoking the compiler. -/
theorem C2_cache_behavior :
    (∀ (orc : Oracles) (cache : List (String × CacheEntry)) (doc : TextDoc)
       (e : CacheEntry), alookup cache doc.uri = some e →
       e.version = doc.version →
       validateTextDocument orc cache doc =
         ⟨e.diagnostics, cache, false, false, false⟩) ∧
    (∀ (orc : Oracles) (cache : List (String × CacheEntry)) (doc : TextDoc)
       (e : CacheEntry), alookup cache doc.uri = some e →
       e.version ≠ doc.version →
       validateTextDocument orc cache doc = runPipeline orc cache doc ∧
       alookup (validateTextDocument orc cache doc).newCache doc.uri =
         some ⟨doc.version, (validateTextDocument orc cache doc).published⟩) ∧
    (∀ (orc : Oracles) (cache : List (String × CacheEntry)) (doc : TextDoc),
       validateTextDocument orc (validateTextDocument orc cache doc).newCache doc =
         ⟨(validateTextDocument orc cache doc).published,
          (validateTextDocument orc cache doc).newCache, false, false, false⟩) := by
  have hitCase : ∀ (orc : Oracles) (cache : List (String × CacheEntry))
      (doc : TextDoc) (e : CacheEntry), alookup cache doc.uri = some e →
      e.version = doc.version →
      validateTextDocument orc cache doc =
        ⟨e.diagnostics, cache, false, false, false⟩ := by
    intro orc cache doc e he hv
    simp [validateTextDocument, he, hv]
  have missCase : ∀ (orc : Oracles) (cache : List (String × CacheEntry))
      (doc : TextDoc) (e : CacheEntry), alookup cache doc.uri = some e →
      e.version ≠ doc.version →
      validateTextDocument orc cache doc = runPipeline orc cache doc := by
    intro orc cache doc e he hv
    simp [validateTextDocument, he, hv]
  refine ⟨hitCase, ?_, ?_⟩
  · intro orc cache doc e he hv
    refine ⟨missCase orc cache doc e he hv, ?_⟩
    rw [missCase orc cache doc e he hv, runPipeline_newCache]
    exact alookup_mapSet_self _ _ _
  · intro orc cache doc
    cases he : alookup cache doc.uri with
    | none =>
      have hrun : validateTextDocument orc cache doc = runPipeline orc cache doc := by
        simp [validateTextDocument, he]
      rw [hrun, runPipeline_newCache]
      exact hitCase orc _ doc _ (alookup_mapSet_self _ _ _) rfl
    | some e =>
      by_cases hv : e.version = doc.version
      · rw [hitCase orc cache doc e he hv]
        exact hitCase orc cache doc e he hv
      · have hrun : validateTextDocument orc cache doc = runPipeline orc cache doc :=
          missCase orc cache doc e he hv
        rw [hrun, runPipeline_newCache]
        exact hitCase orc _ doc _ (alookup_mapSet_self _ _ _) rfl

/-- C2 witness: a concrete cache hit republishes the stored list and runs
nothing. -/
theorem C2_witness :
    validateTextDocument noEffects
      [("file:///t.bn", ⟨1, [⟨Sev.warn, ⟨0, 0⟩, ⟨0, 1⟩, "w", "burn-semantics"⟩]⟩)]
      ⟨"file:///t.bn", 1, ("var a = 1".data)⟩ =
      ⟨[⟨Sev.warn, ⟨0, 0⟩, ⟨0, 1⟩, "w", "burn-semantics"⟩],
       [("file:///t.bn", ⟨1, [⟨Sev.warn, ⟨0, 0⟩, ⟨0, 1⟩, "w", "burn-semantics"⟩]⟩)],
       false, false, false⟩ :=
  C2_cache_behavior.1 noEffects
    [("file:///t.bn", ⟨1, [⟨Sev.warn, ⟨0, 0⟩, ⟨0, 1⟩, "w", "burn-semantics"⟩]⟩)]
    ⟨"file:///t.bn", 1, ("var a = 1".data)⟩
    ⟨1, [⟨Sev.warn, ⟨0, 0⟩, ⟨0, 1⟩, "w", "burn-semantics"⟩]⟩
    (by decide) rfl

/-- C1 counterexample: the text `var a = 1\n}` has a critical ("Unexpected
closing") syntax error, yet the validation pass still publishes a
Lint-stage diagnostic — the claim's "zero diagnostics from the Lint stage /
only syntax-stage diagnostics are published" is false on the code. -/
theorem C1_counterexample :
    ((checkSyn ("var a = 1\n\x7d".data)).any isCritical = true) ∧
    ((validateTextDocument noEffects []
        ⟨"file:///t.bn", 1, ("var a = 1\n\x7d".data)⟩).published.any
      (fun d => d.source == "burn-lint") = true) :=
  ⟨by decide, by decide⟩

/-- C1 amended: on a cache miss whose syntax stage reports a critical
(unclosed / unexpected-closing) error, the pass publishes exactly the
Syntax-stage diagnostics followed by the Lint-stage diagnostics — the type
tracker, the Semantics stage and the Compiler stage are skipped and
contribute nothing, but the Lint stage still runs. -/
theorem C1_amended (orc : Oracles) (cache : List (String × CacheEntry))
    (doc : TextDoc)
    (hmiss : ∀ e, alookup cache doc.uri = some e → e.version ≠ doc.version)
    (hcrit : (checkSyn doc.text).any isCritical = true) :
    validateTextDocument orc cache doc =
      ⟨checkSyn doc.text ++ lintDocument doc.text,
       mapSet cache doc.uri
         ⟨doc.version, checkSyn doc.text ++ lintDocument doc.text⟩,
       false, false, false⟩ := by
  have hrun : runPipeline orc cache doc =
      ⟨checkSyn doc.text ++ lintDocument doc.text,
       mapSet cache doc.uri
         ⟨doc.version, checkSyn doc.text ++ lintDocument doc.text⟩,
       false, false, false⟩ := by
    simp [runPipeline, hcrit]
  cases he : alookup cache doc.uri with
  | none =>
    rw [show validateTextDocument orc cache doc = runPipeline orc cache doc by
      simp [validateTextDocument, he]]
    exact hrun
  | some e =>
    rw [show validateTextDocument orc cache doc = runPipeline orc cache doc by
      simp [validateTextDocument, he, hmiss e he]]
    exact hrun

/-- C1 witness: the amended statement at the concrete critical-error text. -/
theorem C1_witness :
    validateTextDocument noEffects []
      ⟨"file:///t.bn", 1, ("var a = 1\n\x7d".data)⟩ =
      ⟨checkSyn ("var a = 1\n\x7d".data) ++ lintDocument ("var a = 1\n\x7d".data),
       mapSet [] "file:///t.bn"
         ⟨1, checkSyn ("var a = 1\n\x7d".data) ++
             lintDocument ("var a = 1\n\x7d".data)⟩,
       false, false, false⟩ :=
  C1_amended noEffects [] _ (fun e h => by simp [alookup] at h) (by decide)

/-- C5 counterexample: for `def Point { x: int, y }` the pass (with no
compiler on the path) publishes no diagnostic whose message is
"Invalid field definition in type Point"; the single diagnostic actually
published is the semantics warning about `y`. -/
theorem C5_counterexample :
    ((validateTextDocument noEffects []
        ⟨"file:///m.bn", 1, ("def Point \x7b x: int, y \x7d".data)⟩).published.all
      (fun d => d.message != "Invalid field definition in type Point") = true) ∧
    (validateTextDocument noEffects []
        ⟨"file:///m.bn", 1, ("def Point \x7b x: int, y \x7d".data)⟩).published =
      [⟨Sev.warn, ⟨0, 20⟩, ⟨0, 21⟩,
        "Variable \x27y\x27 is used but not declared", "burn-semantics"⟩] :=
  ⟨by decide, by decide⟩

/-- C5 amended: the malformed field entry `y` (no `name:type` shape) is
skipped silently — the indexer records `Point` with the single field
`x: int` and emits no diagnostic at all for the malformed entry; the only
diagnostic of the pass is the semantics stage's warning about `y`. -/
theorem C5_amended :
    (alookup (parseDocumentIndex noImports initialTracker
        ⟨"file:///m.bn", 1, ("def Point \x7b x: int, y \x7d".data)⟩).types
      "file:///m.bn") =
      some [("Point",
        ⟨[("x", "int")], some ("file:///m.bn", ⟨0, 0⟩, ⟨0, 23⟩)⟩)] ∧
    parseFields (" x: int, y ".data) = [("x", "int")] :=
  ⟨by decide, by decide⟩

/-- C7 counterexample: `segmentation fault` is a non-empty compiler output
matching none of the specific patterns, and the parser emits no generic
diagnostic either — the output is dropped silently, contradicting the
claim. -/
theorem C7_counterexample :
    errPatScan ("segmentation fault".data) = [] ∧
    tokenPatScan ("segmentation fault".data) = [] ∧
    undefVarPatScan ("segmentation fault".data) = [] ∧
    mismatchPatScan ("segmentation fault".data) = [] ∧
    trimJS ("segmentation fault".data) ≠ [] ∧
    parseCompilerErrors ("segmentation fault".data) ("var a = 1".data) = [] :=
  ⟨by decide, by decide, by decide, by decide, by decide, by decide⟩

/-- C7 amended: when none of the four specific patterns matches and the
output is non-blank, one generic error diagnostic anchored at the document
start is emitted only if the output matches `error:?\s+(.+)` (case
insensitively), carrying that capture trimmed — not the whole raw output;
without such an `error` token, nothing is emitted. -/
theorem C7_amended (output doc : List Char)
    (h1 : errPatScan output = []) (h2 : tokenPatScan output = [])
    (h3 : undefVarPatScan output = []) (h4 : mismatchPatScan output = [])
    (h5 : trimJS output ≠ []) :
    parseCompilerErrors output doc =
      (match genericMatch output with
       | some m =>
         [⟨Sev.err, ⟨0, 0⟩, ⟨0, 1⟩, ⟨trimJS m.data⟩, "burn-compiler"⟩]
       | none => []) := by
  simp [parseCompilerErrors, h1, h2, h3, h4, h5]

/-- C7 witness: the amended statement on a concrete unmatched output that
does contain an `error:` token. -/
theorem C7_witness :
    parseCompilerErrors ("weird error: something odd".data) ("var a = 1".data) =
      [⟨Sev.err, ⟨0, 0⟩, ⟨0, 1⟩, "something odd", "burn-compiler"⟩] := by
  rw [C7_amended ("weird error: something odd".data) ("var a = 1".data)
    (by decide) (by decide) (by decide) (by decide) (by decide)]
  decide

/-- C8 counterexample: two validations of the same document at different
versions and with different contents use the same temporary file path —
the name is a function of the URI alone, not unique per invocation. -/
theorem C8_counterexample :
    tempPathOf ⟨"file:///a.bn", 1, ("var a = 1".data)⟩ =
      tempPathOf ⟨"file:///a.bn", 2, ("var b = 2".data)⟩ := rfl

/-- C8 amended: the temporary path is `/tmp/burn-<md5(uri)><ext>`, a pure
function of the document URI — all validations of one document (any
version, any content) share one path, while documents with different URIs
get different hashed names (witnessed concretely). -/
theorem C8_amended :
    (∀ d1 d2 : TextDoc, d1.uri = d2.uri → tempPathOf d1 = tempPathOf d2) ∧
    getTempFilePath "file:///a.bn" ".bn" ≠ getTempFilePath "file:///b.bn" ".bn" := by
  constructor
  · intro d1 d2 h
    simp [tempPathOf, h]
  · decide

/-- C8 witness: the amended statement at a concrete same-URI pair. -/
theorem C8_witness :
    tempPathOf ⟨"file:///a.bn", 1, ("x".data)⟩ =
      tempPathOf ⟨"file:///a.bn", 7, ("y".data)⟩ :=
  C8_amended.1 _ _ rfl

/-- C9: the semantics stage tests its builtin allowlist against the
lowercased identifier, so an identifier whose lowercasing is in the
allowlist — in particular `i`, `j`, `k`, `index`, `value`, `key` and any
case variant of a builtin such as `Print` or `INPUT` — is never reported
as used-but-not-declared. -/
theorem C9_builtins_case_insensitive :
    (∀ (text : List Char) (nm : String),
       builtInsList.contains (lowerStr nm) = true →
       ∀ p, (nm, p) ∉ checkSemanticsCore text) ∧
    (∀ (text : List Char) (nm : String),
       nm ∈ ["i", "j", "k", "index", "value", "key"] →
       ∀ p, (nm, p) ∉ checkSemanticsCore text) := by
  have main : ∀ (text : List Char) (nm : String),
      builtInsList.contains (lowerStr nm) = true →
      ∀ p, (nm, p) ∉ checkSemanticsCore text := by
    intro text nm hb p hmem
    unfold checkSemanticsCore at hmem
    rw [List.mem_filterMap] at hmem
    obtain ⟨⟨nm', ps⟩, _, heq⟩ := hmem
    dsimp only at heq
    split_ifs at heq with hg
    · cases ps with
      | nil => exact absurd heq (by simp)
      | cons p0 _ =>
        have hnm : nm' = nm := congrArg Prod.fst (Option.some.inj heq)
        rw [hnm] at hg
        exact hg.2.1 hb
  refine ⟨main, ?_⟩
  intro text nm hnm p
  fin_cases hnm <;> exact main text _ (by decide) p

/-- C9 witness: `Print` lowers into the allowlist and is not reported even
when the file consists only of the bare identifier. -/
theorem C9_witness :
    builtInsList.contains (lowerStr "Print") = true ∧
    ("Print", 0) ∉ checkSemanticsCore ("Print\n".data) :=
  ⟨by decide,
   C9_builtins_case_insensitive.1 ("Print\n".data) "Print" (by decide) 0⟩

/-- A character that can start an identifier is none of the scanner's
special characters. -/
theorem identStart_ne_special (c : Char) (hc : isIdentStart c = true) :
    c ≠ '/' ∧ c ≠ '"' ∧ c ≠ '\'' ∧ c ≠ '{' ∧ c ≠ '}' ∧ c ≠ '(' ∧ c ≠ ')' ∧
      c ≠ '[' ∧ c ≠ ']' := by
  have key : ∀ d : Char, isIdentStart d = false → c ≠ d := by
    intro d hd hcd
    rw [hcd] at hc
    rw [hd] at hc
    exact Bool.false_ne_true hc
  exact ⟨key _ (by decide), key _ (by decide), key _ (by decide),
    key _ (by decide), key _ (by decide), key _ (by decide), key _ (by decide),
    key _ (by decide), key _ (by decide)⟩

/-- Every declaration keyword is a keyword. -/
theorem declKw_sub_kw (w : String) (h : declKwList.contains w = true) :
    kwList.contains w = true := by
  have hw : w ∈ declKwList := by
    simpa [List.contains] using h
  fin_cases hw <;> decide

/-- C6: during the scan (outside strings and line comments), a closing
delimiter met while its depth counter is zero emits exactly one error at
that character and leaves the counter at zero — for braces, parentheses
and brackets alike; on `fun f() { }\n}` the whole stage yields exactly one
error, "Unexpected closing brace '}'", at the second closing brace
(line 1, character 0). -/
theorem C6_unmatched_closing :
    (∀ (text : List Char) (f i : Nat) (st : SynSt), i < text.length →
      st.inLineComment = false → st.inString = false →
      text.getD i ' ' = '}' → st.braces = 0 →
      synLoop text (f + 1) i st =
        synLoop text f (i + 1)
          { st with braces := 0, openBracePos := st.openBracePos.tail,
                    diags := st.diags ++
                      [synDiag text i (i + 1)
                        "Unexpected closing brace \x27\x7d\x27"] }) ∧
    (∀ (text : List Char) (f i : Nat) (st : SynSt), i < text.length →
      st.inLineComment = false → st.inString = false →
      text.getD i ' ' = ')' → st.parens = 0 →
      synLoop text (f + 1) i st =
        synLoop text f (i + 1)
          { st with parens := 0, openParenPos := st.openParenPos.tail,
                    diags := st.diags ++
                      [synDiag text i (i + 1)
                        "Unexpected closing parenthesis \x27)\x27"] }) ∧
    (∀ (text : List Char) (f i : Nat) (st : SynSt), i < text.length →
      st.inLineComment = false → st.inString = false →
      text.getD i ' ' = ']' → st.brackets = 0 →
      synLoop text (f + 1) i st =
        synLoop text f (i + 1)
          { st with brackets := 0, openBracketPos := st.openBracketPos.tail,
                    diags := st.diags ++
                      [synDiag text i (i + 1)
                        "Unexpected closing bracket \x27]\x27"] }) ∧
    checkSyn ("fun f() \x7b \x7d\n\x7d".data) =
      [⟨Sev.err, ⟨1, 0⟩, ⟨1, 1⟩, "Unexpected closing brace \x27\x7d\x27",
        "burn-syntax"⟩] := by
  refine ⟨?_, ?_, ?_, by decide⟩
  · intro text f i st hi hcm hs hc hb
    simp only [synLoop, if_pos hi]
    simp at hc
    simp [hc, hcm, hs, hb]
  · intro text f i st hi hcm hs hc hb
    simp only [synLoop, if_pos hi]
    simp at hc
    simp [hc, hcm, hs, hb]
  · intro text f i st hi hcm hs hc hb
    simp only [synLoop, if_pos hi]
    simp at hc
    simp [hc, hcm, hs, hb]

/-- C6 witness: the brace step at a concrete one-character text. -/
theorem C6_witness :
    synLoop ("\x7d".data) 2 0 synInit =
      synLoop ("\x7d".data) 1 1
        { synInit with braces := 0, openBracePos := [],
                       diags := [synDiag ("\x7d".data) 0 1
                         "Unexpected closing brace \x27\x7d\x27"] } := by
  have h := C6_unmatched_closing.1 ("\x7d".data) 1 0 synInit (by decide) rfl rfl
    (by decide) rfl
  simpa using h

/-- C10: a declaration keyword (`fun`, `var`, `const`, `def`, `class`)
scanned outside strings and comments and followed — after optional
whitespace — by a character that cannot start an identifier makes the
syntax stage emit exactly one error spanning the keyword, with message
"Expected identifier after '<kw>'"; such a message never satisfies the
critical-failure predicate, so on `var =` the pipeline still runs the
semantics stage. -/
theorem C10_expected_identifier :
    (∀ (text : List Char) (f i : Nat) (st : SynSt), i < text.length →
      st.inLineComment = false → st.inString = false →
      isIdentStart (text.getD i ' ') = true →
      declKwList.contains
        (⟨subRange text i (runWhile isIdentChar text (i + 1))⟩ : String) = true →
      runWhile isIdentChar text (i + 1) < text.length →
      runWhile isSpaceJS text (runWhile isIdentChar text (i + 1)) <
        text.length →
      isIdentStart
        (text.getD (runWhile isSpaceJS text (runWhile isIdentChar text (i + 1)))
          ' ') = false →
      synLoop text (f + 1) i st =
        synLoop text f (runWhile isIdentChar text (i + 1))
          { st with diags := st.diags ++
              [synDiag text i (runWhile isIdentChar text (i + 1))
                ("Expected identifier after \x27" ++
                  (⟨subRange text i (runWhile isIdentChar text (i + 1))⟩ : String)
                  ++ "\x27")] }) ∧
    (∀ (text : List Char) (i j : Nat) (w : String),
      declKwList.contains w = true →
      isCritical (synDiag text i j ("Expected identifier after \x27" ++ w ++ "\x27")) =
        false) ∧
    checkSyn ("var =".data) =
      [⟨Sev.err, ⟨0, 0⟩, ⟨0, 3⟩, "Expected identifier after \x27var\x27",
        "burn-syntax"⟩] ∧
    (checkSyn ("var =".data)).any isCritical = false ∧
    (validateTextDocument noEffects []
      ⟨"file:///t.bn", 1, ("var =".data)⟩).ranSemantics = true := by
  refine ⟨?_, ?_, by decide, by decide, by decide⟩
  · intro text f i st hi hcm hs hident hdecl hj hk hkident
    obtain ⟨h1, h2, h3, h4, h5, h6, h7, h8, h9⟩ :=
      identStart_ne_special _ hident
    have hkw := declKw_sub_kw _ hdecl
    simp only [synLoop, if_pos hi]
    simp at h1 h2 h3 h4 h5 h6 h7 h8 h9 hident hkident hkw hdecl ⊢
    simp [hcm, hs, h1, h2, h3, h4, h5, h6, h7, h8, h9, hident, hkw, hdecl,
      hj, hk, hkident]
    simp only [List.getElem?_eq_getElem hk, Option.getD_some] at hkident
    simp [hkident]
  · intro text i j w hw
    have hmem : w ∈ declKwList := by
      simpa [List.contains] using hw
    fin_cases hmem <;>
      · rw [show ∀ (a b : Nat) (msg : String), isCritical (synDiag text a b msg) =
            (containsStr "Unclosed" msg || containsStr "Unexpected closing" msg)
          from fun a b msg => by simp [isCritical, synDiag]]
        decide

/-- C10 witness: the step at the concrete text `var =`. -/
theorem C10_witness :
    synLoop ("var =".data) 5 0 synInit =
      synLoop ("var =".data) 4 3
        { synInit with diags := [synDiag ("var =".data) 0 3
            "Expected identifier after \x27var\x27"] } := by
  have h := C10_expected_identifier.1 ("var =".data) 4 0 synInit (by decide)
    rfl rfl (by decide) (by decide) (by decide) (by decide) (by decide)
  simpa using h

/-! ### Lookup tiers of the symbol queries -/

/-- Tier: the current file's function table. -/
def tierLocalF (st : TrackerState) (name : String) : Option FunctionType :=
  (alookup st.functions st.currentFile).bind fun m => alookup m name

/-- Tier: the builtin function table. -/
def tierBuiltinF (st : TrackerState) (name : String) : Option FunctionType :=
  (alookup st.functions "__builtin__").bind fun m => alookup m name

/-- Tier: function tables of files whose URI contains an entry of the
current file's import list. -/
def tierImportedF (st : TrackerState) (name : String) : Option FunctionType :=
  ((alookup st.imports st.currentFile).getD []).findSome? fun ip =>
    st.functions.findSome? fun p =>
      if p.1 ≠ st.currentFile ∧ containsStr ip p.1 then alookup p.2 name
      else none

/-- Tier: the current file's type table. -/
def tierLocalT (st : TrackerState) (name : String) : Option TypeDefinition :=
  (alookup st.types st.currentFile).bind fun m => alookup m name

/-- Tier: the builtin type table. -/
def tierBuiltinT (st : TrackerState) (name : String) : Option TypeDefinition :=
  (alookup st.types "__builtin__").bind fun m => alookup m name

/-- Tier: imported files' type tables. -/
def tierImportedT (st : TrackerState) (name : String) : Option TypeDefinition :=
  ((alookup st.imports st.currentFile).getD []).findSome? fun ip =>
    st.types.findSome? fun p =>
      if p.1 ≠ st.currentFile ∧ containsStr ip p.1 then alookup p.2 name
      else none

/-- Tier: the current file's variable table. -/
def tierLocalV (st : TrackerState) (name : String) : Option VarInfo :=
  (alookup st.varTbl st.currentFile).bind fun m => alookup m name

/-- Tier: imported files' variable tables. -/
def tierImportedV (st : TrackerState) (name : String) : Option VarInfo :=
  ((alookup st.imports st.currentFile).getD []).findSome? fun ip =>
    st.varTbl.findSome? fun p =>
      if p.1 ≠ st.currentFile ∧ containsStr ip p.1 then alookup p.2 name
      else none

theorem findSome?_map_comm {α β γ : Type} (l : List α) (f : α → Option β)
    (g : β → γ) :
    l.findSome? (fun a => (f a).map g) = (l.findSome? f).map g := by
  induction l with
  | nil => rfl
  | cons hd t ih =>
    rw [List.findSome?_cons, List.findSome?_cons]
    cases f hd <;> simp [ih]

/-- The import tier of `getType` (which maps to `.fields` inside the scan)
is the tier lookup with `.fields` mapped outside. -/
theorem tierImportedT_map_fields (st : TrackerState) (n : String) :
    (((alookup st.imports st.currentFile).getD []).findSome? fun ip =>
      st.types.findSome? fun p =>
        if p.1 ≠ st.currentFile ∧ containsStr ip p.1 then
          (alookup p.2 n).map fun t => t.fields
        else none) = (tierImportedT st n).map fun t => t.fields := by
  unfold tierImportedT
  rw [← findSome?_map_comm]
  congr 1
  funext ip
  rw [← findSome?_map_comm]
  congr 1
  funext p
  by_cases hc : p.1 ≠ st.currentFile ∧ containsStr ip p.1 <;> simp [hc]

/-- Same commutation for the import tier of `getVariableType`. -/
theorem tierImportedV_map_type (st : TrackerState) (n : String) :
    (((alookup st.imports st.currentFile).getD []).findSome? fun ip =>
      st.varTbl.findSome? fun p =>
        if p.1 ≠ st.currentFile ∧ containsStr ip p.1 then
          (alookup p.2 n).map fun vi => vi.type
        else none) = (tierImportedV st n).map fun vi => vi.type := by
  unfold tierImportedV
  rw [← findSome?_map_comm]
  congr 1
  funext ip
  rw [← findSome?_map_comm]
  congr 1
  funext p
  by_cases hc : p.1 ≠ st.currentFile ∧ containsStr ip p.1 <;> simp [hc]

/-- A sample cross-file index: the current file `a.bn` imports nothing,
and only the unrelated file `b.bn` defines `f`. -/
def trackerC3 : TrackerState :=
  { initialTracker with
      functions := initialTracker.functions ++
        [("file:///a.bn", []), ("file:///b.bn", [("f", ⟨[], "int", none, none⟩)])],
      imports := [("file:///a.bn", [])],
      currentFile := "file:///a.bn" }

/-- C3 counterexample: with `f` defined only in a non-imported file,
`getFunction` returns nothing although the specified fourth tier
("every other indexed file, as a last-resort fallback") would find it —
the code has no such fallback. -/
theorem C3_counterexample :
    getFunction trackerC3 "f" = none ∧
    getFunctionSpec trackerC3 "f" = some ⟨[], "int", none, none⟩ :=
  ⟨by decide, by decide⟩

/-- C3 amended: the symbol queries are layered lookups without any
last-resort all-files tier — `getFunction` tries the current file, then
the builtins, then imported files; `getType` tries the builtins *first*,
then the current file, then imported files; `getVariableType` tries the
current file then imported files (no builtin tier); and appending an
unimported file's table (URI not containing any import-list entry) never
changes a `getFunction` answer. -/
theorem C3_amended :
    (∀ (st : TrackerState) (n : String),
      getFunction st n =
        ((tierLocalF st n).orElse fun _ =>
          (tierBuiltinF st n).orElse fun _ => tierImportedF st n)) ∧
    (∀ (st : TrackerState) (n : String),
      getType st n =
        (((tierBuiltinT st n).orElse fun _ =>
          (tierLocalT st n).orElse fun _ => tierImportedT st n).map
            fun t => t.fields)) ∧
    (∀ (st : TrackerState) (n : String),
      getVariableType st n =
        (((tierLocalV st n).orElse fun _ => tierImportedV st n).map
          fun v => v.type)) ∧
    (∀ (st : TrackerState) (n u : String) (tbl : List (String × FunctionType)),
      u ≠ st.currentFile → u ≠ "__builtin__" →
      (∀ ip ∈ (alookup st.imports st.currentFile).getD [],
        containsStr ip u = false) →
      getFunction { st with functions := st.functions ++ [(u, tbl)] } n =
        getFunction st n) := by
  refine ⟨?_, ?_, ?_, ?_⟩
  · intro st n
    unfold getFunction tierLocalF tierBuiltinF tierImportedF
    cases (alookup st.functions st.currentFile).bind fun m => alookup m n with
    | some f => rfl
    | none =>
      cases (alookup st.functions "__builtin__").bind fun m => alookup m n <;> rfl
  · intro st n
    unfold getType
    cases hb : (alookup st.types "__builtin__").bind fun m => alookup m n with
    | some t => simp [tierBuiltinT, hb]
    | none =>
      cases hl : (alookup st.types st.currentFile).bind fun m => alookup m n with
      | some t => simp [tierBuiltinT, tierLocalT, hb, hl]
      | none =>
        simp only [tierBuiltinT, tierLocalT, hb, hl, Option.none_orElse]
        exact tierImportedT_map_fields st n
  · intro st n
    unfold getVariableType
    cases hl : (alookup st.varTbl st.currentFile).bind fun m => alookup m n with
    | some v => simp [tierLocalV, hl]
    | none =>
      simp only [tierLocalV, hl, Option.none_orElse]
      exact tierImportedV_map_type st n
  · intro st n u tbl hu hb himp
    unfold getFunction
    have h1 : alookup (st.functions ++ [(u, tbl)]) st.currentFile =
        alookup st.functions st.currentFile := by
      rw [alookup_append]
      cases alookup st.functions st.currentFile with
      | some m => rfl
      | none => simp [alookup, hu]
    have h2 : alookup (st.functions ++ [(u, tbl)]) "__builtin__" =
        alookup st.functions "__builtin__" := by
      rw [alookup_append]
      cases alookup st.functions "__builtin__" with
      | some m => rfl
      | none => simp [alookup, hb]
    have h3 : ∀ ip ∈ (alookup st.imports st.currentFile).getD [],
        ((st.functions ++ [(u, tbl)]).findSome? fun p =>
          if p.1 ≠ st.currentFile ∧ containsStr ip p.1 then alookup p.2 n
          else none) =
        (st.functions.findSome? fun p =>
          if p.1 ≠ st.currentFile ∧ containsStr ip p.1 then alookup p.2 n
          else none) := by
      intro ip hip
      rw [findSome?_append]
      cases st.functions.findSome? fun p =>
          if p.1 ≠ st.currentFile ∧ containsStr ip p.1 then alookup p.2 n
          else none with
      | some f => rfl
      | none => simp [List.findSome?, himp ip hip]
    simp only [h1, h2]
    cases (alookup st.functions st.currentFile).bind fun m => alookup m n with
    | some f => rfl
    | none =>
      cases (alookup st.functions "__builtin__").bind fun m => alookup m n with
      | some f => rfl
      | none => exact findSome?_congr _ _ _ h3

/-- C3 witness: appending a concrete unimported file's table does not
change a concrete `getFunction` answer. -/
theorem C3_witness :
    getFunction { trackerC3 with
      functions := trackerC3.functions ++ [("file:///z.bn", [])] } "print" =
      getFunction trackerC3 "print" :=
  C3_amended.2.2.2 trackerC3 "print" "file:///z.bn" [] (by decide) (by decide)
    (by decide)

/-! ### Re-indexing and the per-URI tables (claim C4) -/

/-- The declared names recorded for `uri` in one per-file table. -/
def keysAt {α : Type} (tbl : List (String × List (String × α)))
    (uri : String) : List String :=
  ((alookup tbl uri).getD []).map Prod.fst

theorem alookup_ensureKey_self {α : Type} (m : List (String × α))
    (k : String) (e : α) :
    alookup (ensureKey m k e) k = some ((alookup m k).getD e) := by
  unfold ensureKey
  cases h : alookup m k with
  | some v => simp [h]
  | none => simp [h, alookup_append, alookup]

theorem alookup_ensureKey_ne {α : Type} (m : List (String × α))
    (k k' : String) (e : α) (h : k' ≠ k) :
    alookup (ensureKey m k e) k' = alookup m k' := by
  unfold ensureKey
  cases hm : alookup m k with
  | some v => rfl
  | none =>
    rw [alookup_append]
    cases alookup m k' <;> simp [alookup, Ne.symm h]

theorem alookup_clearKey_self {α : Type} (m : List (String × List α))
    (k : String) (h : (alookup m k).isSome = true) :
    alookup (clearKey m k) k = some [] := by
  unfold clearKey
  cases hm : alookup m k with
  | some v => exact alookup_mapSet_self _ _ _
  | none => rw [hm] at h; simp at h

theorem foldl_mapSet_keys {β γ : Type} (g : γ → String) (f : γ → β)
    (nm : String) :
    ∀ (l : List γ) (acc : List (String × β)),
      nm ∈ (l.foldl (fun a p => mapSet a (g p) (f p)) acc).map Prod.fst →
      nm ∈ acc.map Prod.fst ∨ nm ∈ l.map g := by
  intro l
  induction l with
  | nil => intro acc h; exact Or.inl h
  | cons p t ih =>
    intro acc h
    rw [List.foldl_cons] at h
    rcases ih _ h with h2 | h2
    · rcases mem_fst_mapSet _ _ _ _ h2 with h3 | h3
      · exact Or.inl h3
      · exact Or.inr (by simp [h3])
    · exact Or.inr (by simp [h2])

/-- `addType` touches only the current file's type table; all names it can
introduce there are the added one. -/
theorem addType_spec (s : TrackerState) (tn : String)
    (fs : List (String × String)) (r : DiagPos × DiagPos) :
    (addType s tn fs r).currentFile = s.currentFile ∧
    (addType s tn fs r).functions = s.functions ∧
    (addType s tn fs r).classes = s.classes ∧
    (addType s tn fs r).varTbl = s.varTbl ∧
    (addType s tn fs r).imports = s.imports ∧
    (∀ uri, uri ≠ s.currentFile →
      alookup (addType s tn fs r).types uri = alookup s.types uri) ∧
    (∀ uri nm, s.currentFile = uri →
      nm ∈ keysAt (addType s tn fs r).types uri →
      nm ∈ keysAt s.types uri ∨ nm = tn) := by
  unfold addType
  cases hm : alookup s.types s.currentFile with
  | none =>
    exact ⟨rfl, rfl, rfl, rfl, rfl, fun _ _ => rfl, fun uri nm _ hk => Or.inl hk⟩
  | some m =>
    refine ⟨rfl, rfl, rfl, rfl, rfl, ?_, ?_⟩
    · intro uri hu
      exact alookup_mapSet_ne _ _ _ _ hu
    · intro uri nm hcf hk
      unfold keysAt at hk
      rw [← hcf, alookup_mapSet_self] at hk
      simp only [Option.getD_some] at hk
      rcases mem_fst_mapSet _ _ _ _ hk with h2 | h2
      · left
        unfold keysAt
        rw [← hcf, hm]
        simpa using h2
      · right
        exact h2

/-- `addFunction`: the analogue of `addType_spec`. -/
theorem addFunction_spec (s : TrackerState) (fn : String) (ft : FunctionType)
    (r : DiagPos × DiagPos) :
    (addFunction s fn ft r).currentFile = s.currentFile ∧
    (addFunction s fn ft r).types = s.types ∧
    (addFunction s fn ft r).classes = s.classes ∧
    (addFunction s fn ft r).varTbl = s.varTbl ∧
    (addFunction s fn ft r).imports = s.imports ∧
    (∀ uri, uri ≠ s.currentFile →
      alookup (addFunction s fn ft r).functions uri = alookup s.functions uri) ∧
    (∀ uri nm, s.currentFile = uri →
      nm ∈ keysAt (addFunction s fn ft r).functions uri →
      nm ∈ keysAt s.functions uri ∨ nm = fn) := by
  unfold addFunction
  cases hm : alookup s.functions s.currentFile with
  | none =>
    exact ⟨rfl, rfl, rfl, rfl, rfl, fun _ _ => rfl, fun uri nm _ hk => Or.inl hk⟩
  | some m =>
    refine ⟨rfl, rfl, rfl, rfl, rfl, ?_, ?_⟩
    · intro uri hu
      exact alookup_mapSet_ne _ _ _ _ hu
    · intro uri nm hcf hk
      unfold keysAt at hk
      rw [← hcf, alookup_mapSet_self] at hk
      simp only [Option.getD_some] at hk
      rcases mem_fst_mapSet _ _ _ _ hk with h2 | h2
      · left
        unfold keysAt
        rw [← hcf, hm]
        simpa using h2
      · right
        exact h2

/-- `addVariable`: the analogue of `addType_spec`. -/
theorem addVariable_spec (s : TrackerState) (vn ty : String)
    (r : DiagPos × DiagPos) (c : Bool) :
    (addVariable s vn ty r c).currentFile = s.currentFile ∧
    (addVariable s vn ty r c).types = s.types ∧
    (addVariable s vn ty r c).classes = s.classes ∧
    (addVariable s vn ty r c).functions = s.functions ∧
    (addVariable s vn ty r c).imports = s.imports ∧
    (∀ uri, uri ≠ s.currentFile →
      alookup (addVariable s vn ty r c).varTbl uri = alookup s.varTbl uri) ∧
    (∀ uri nm, s.currentFile = uri →
      nm ∈ keysAt (addVariable s vn ty r c).varTbl uri →
      nm ∈ keysAt s.varTbl uri ∨ nm = vn) := by
  unfold addVariable
  cases hm : alookup s.varTbl s.currentFile with
  | none =>
    exact ⟨rfl, rfl, rfl, rfl, rfl, fun _ _ => rfl, fun uri nm _ hk => Or.inl hk⟩
  | some m =>
    refine ⟨rfl, rfl, rfl, rfl, rfl, ?_, ?_⟩
    · intro uri hu
      exact alookup_mapSet_ne _ _ _ _ hu
    · intro uri nm hcf hk
      unfold keysAt at hk
      rw [← hcf, alookup_mapSet_self] at hk
      simp only [Option.getD_some] at hk
      rcases mem_fst_mapSet _ _ _ _ hk with h2 | h2
      · left
        unfold keysAt
        rw [← hcf, hm]
        simpa using h2
      · right
        exact h2

/-- `addClass`: only the current file's class table changes, gaining at
most the folded method names. -/
theorem addClass_spec (s : TrackerState) (methods : List (String × ClassMethod))
    (r : DiagPos × DiagPos) :
    (addClass s methods r).currentFile = s.currentFile ∧
    (addClass s methods r).types = s.types ∧
    (addClass s methods r).functions = s.functions ∧
    (addClass s methods r).varTbl = s.varTbl ∧
    (addClass s methods r).imports = s.imports ∧
    (∀ uri, uri ≠ s.currentFile →
      alookup (addClass s methods r).classes uri = alookup s.classes uri) ∧
    (∀ uri nm, s.currentFile = uri →
      nm ∈ keysAt (addClass s methods r).classes uri →
      nm ∈ keysAt s.classes uri ∨ nm ∈ methods.map Prod.fst) := by
  unfold addClass
  cases hm : alookup s.classes s.currentFile with
  | none =>
    exact ⟨rfl, rfl, rfl, rfl, rfl, fun _ _ => rfl, fun uri nm _ hk => Or.inl hk⟩
  | some m =>
    refine ⟨rfl, rfl, rfl, rfl, rfl, ?_, ?_⟩
    · intro uri hu
      exact alookup_mapSet_ne _ _ _ _ hu
    · intro uri nm hcf hk
      unfold keysAt at hk
      rw [← hcf, alookup_mapSet_self] at hk
      simp only [Option.getD_some] at hk
      rcases foldl_mapSet_keys Prod.fst
        (fun p => { p.2 with location := some (s.currentFile, r) }) nm methods m
        hk with h2 | h2
      · left
        unfold keysAt
        rw [← hcf, hm]
        simpa using h2
      · right
        exact h2

/-- `extractTypesAndFunctionsFromText` targeting a *different* URI leaves
every table of `uri` untouched and restores the current file. -/
theorem extractText_preserve (s : TrackerState) (content : List Char)
    (u uri : String) (hu : u ≠ uri) :
    (extractText s content u).currentFile = s.currentFile ∧
    alookup (extractText s content u).types uri = alookup s.types uri ∧
    alookup (extractText s content u).functions uri = alookup s.functions uri ∧
    alookup (extractText s content u).classes uri = alookup s.classes uri ∧
    alookup (extractText s content u).varTbl uri = alookup s.varTbl uri ∧
    alookup (extractText s content u).imports uri = alookup s.imports uri := by
  have hP : ∀ s' : TrackerState,
      (s'.currentFile = u ∧
       alookup s'.types uri = alookup s.types uri ∧
       alookup s'.functions uri = alookup s.functions uri ∧
       alookup s'.classes uri = alookup s.classes uri ∧
       alookup s'.varTbl uri = alookup s.varTbl uri ∧
       alookup s'.imports uri = alookup s.imports uri) →
      True := fun _ _ => trivial
  set P : TrackerState → Prop := fun s' =>
    s'.currentFile = u ∧
    alookup s'.types uri = alookup s.types uri ∧
    alookup s'.functions uri = alookup s.functions uri ∧
    alookup s'.classes uri = alookup s.classes uri ∧
    alookup s'.varTbl uri = alookup s.varTbl uri ∧
    alookup s'.imports uri = alookup s.imports uri with hPdef
  have h0 : P (setCurrentFile s u) := by
    refine ⟨rfl, ?_, ?_, ?_, ?_, ?_⟩ <;>
      exact alookup_ensureKey_ne _ _ _ _ (Ne.symm hu)
  have hty : ∀ s' m, m ∈ typeScanT content → P s' →
      P (typeStep content s' m) := by
    intro s' m _ hp
    obtain ⟨hc, h2, h3, h4, h5, h6⟩ := hp
    obtain ⟨f1, f2, f3, f4, f5, f6, _⟩ :=
      addType_spec s' m.name (parseFields m.body)
        (positionAt content m.idx, positionAt content m.stop)
    have hne : uri ≠ s'.currentFile := by rw [hc]; exact Ne.symm hu
    exact ⟨by simp only [typeStep]; rw [f1]; exact hc,
      by simp only [typeStep]; rw [f6 uri hne]; exact h2,
      by simp only [typeStep]; rw [f2]; exact h3,
      by simp only [typeStep]; rw [f3]; exact h4,
      by simp only [typeStep]; rw [f4]; exact h5,
      by simp only [typeStep]; rw [f5]; exact h6⟩
  have hfn : ∀ s' m, m ∈ funScanT content → P s' →
      P (funStep content s' m) := by
    intro s' m _ hp
    obtain ⟨hc, h2, h3, h4, h5, h6⟩ := hp
    obtain ⟨f1, f2, f3, f4, f5, f6, _⟩ :=
      addFunction_spec s' m.name ⟨parseParams m.params, m.ret, none, none⟩
        (positionAt content m.idx, positionAt content m.stop)
    have hne : uri ≠ s'.currentFile := by rw [hc]; exact Ne.symm hu
    exact ⟨by simp only [funStep]; rw [f1]; exact hc,
      by simp only [funStep]; rw [f2]; exact h2,
      by simp only [funStep]; rw [f6 uri hne]; exact h3,
      by simp only [funStep]; rw [f3]; exact h4,
      by simp only [funStep]; rw [f4]; exact h5,
      by simp only [funStep]; rw [f5]; exact h6⟩
  have hcl : ∀ s' m, m ∈ classScanT content → P s' →
      P (classStep content s' m) := by
    intro s' m _ hp
    obtain ⟨hc, h2, h3, h4, h5, h6⟩ := hp
    obtain ⟨f1, f2, f3, f4, f5, f6, _⟩ :=
      addClass_spec s' (methodsOf m)
        (positionAt content m.idx, positionAt content m.stop)
    have hne : uri ≠ s'.currentFile := by rw [hc]; exact Ne.symm hu
    exact ⟨by simp only [classStep]; rw [f1]; exact hc,
      by simp only [classStep]; rw [f2]; exact h2,
      by simp only [classStep]; rw [f3]; exact h3,
      by simp only [classStep]; rw [f6 uri hne]; exact h4,
      by simp only [classStep]; rw [f4]; exact h5,
      by simp only [classStep]; rw [f5]; exact h6⟩
  have hfin : P ((classScanT content).foldl (classStep content)
      ((funScanT content).foldl (funStep content)
        ((typeScanT content).foldl (typeStep content) (setCurrentFile s u)))) :=
    foldl_inv P _ _ _ hcl
      (foldl_inv P _ _ _ hfn (foldl_inv P _ _ _ hty h0))
  obtain ⟨g1, g2, g3, g4, g5, g6⟩ := hfin
  exact ⟨rfl, g2, g3, g4, g5, g6⟩

/-- `addImport` with a resolver that never targets `uri`: the four
declaration tables of `uri` are untouched and its import list gains
exactly the pushed path. -/
theorem addImport_spec (resolve : ResolveOracle) (uri : String)
    (horacle : ∀ p u c, resolve p = some (u, c) → u ≠ uri)
    (s : TrackerState) (p : String) (l : List String)
    (hcf : s.currentFile = uri) (himp : alookup s.imports uri = some l) :
    (addImport resolve s p).currentFile = uri ∧
    alookup (addImport resolve s p).types uri = alookup s.types uri ∧
    alookup (addImport resolve s p).functions uri = alookup s.functions uri ∧
    alookup (addImport resolve s p).classes uri = alookup s.classes uri ∧
    alookup (addImport resolve s p).varTbl uri = alookup s.varTbl uri ∧
    alookup (addImport resolve s p).imports uri = some (l ++ [p]) := by
  rw [← hcf] at himp ⊢
  unfold addImport
  rw [himp]
  dsimp only
  cases hr : resolve p with
  | none =>
    exact ⟨rfl, rfl, rfl, rfl, rfl, alookup_mapSet_self _ _ _⟩
  | some uc =>
    obtain ⟨u, c⟩ := uc
    have hu2 : u ≠ s.currentFile := by rw [hcf]; exact horacle p u c hr
    obtain ⟨e1, e2, e3, e4, e5, e6⟩ := extractText_preserve
      { s with imports := mapSet s.imports s.currentFile (l ++ [p]) } c u
      s.currentFile hu2
    exact ⟨by rw [e1], by rw [e2], by rw [e3], by rw [e4], by rw [e5],
      by rw [e6]; exact alookup_mapSet_self _ _ _⟩

/-- The import fold: tables of `uri` preserved, import list extended in
scan order. -/
theorem importsFold_spec (resolve : ResolveOracle) (uri : String)
    (horacle : ∀ p u c, resolve p = some (u, c) → u ≠ uri) :
    ∀ (ps : List String) (s : TrackerState) (l : List String),
      s.currentFile = uri → alookup s.imports uri = some l →
      ((ps.foldl (addImport resolve) s).currentFile = uri ∧
       alookup (ps.foldl (addImport resolve) s).types uri =
         alookup s.types uri ∧
       alookup (ps.foldl (addImport resolve) s).functions uri =
         alookup s.functions uri ∧
       alookup (ps.foldl (addImport resolve) s).classes uri =
         alookup s.classes uri ∧
       alookup (ps.foldl (addImport resolve) s).varTbl uri =
         alookup s.varTbl uri ∧
       alookup (ps.foldl (addImport resolve) s).imports uri =
         some (l ++ ps)) := by
  intro ps
  induction ps with
  | nil =>
    intro s l h hi
    exact ⟨h, rfl, rfl, rfl, rfl, by simpa using hi⟩
  | cons p t ih =>
    intro s l h hi
    obtain ⟨a1, a2, a3, a4, a5, a6⟩ := addImport_spec resolve uri horacle s p l h hi
    obtain ⟨b1, b2, b3, b4, b5, b6⟩ := ih (addImport resolve s p) (l ++ [p]) a1 a6
    rw [List.foldl_cons]
    refine ⟨b1, b2.trans a2, b3.trans a3, b4.trans a4, b5.trans a5, ?_⟩
    rw [b6]
    simp

/-- The type-extraction fold: other tables untouched, and the type names
recorded for the current URI all come from the matches (or were already
there). -/
theorem typesFold_spec (text : List Char) (uri : String) :
    ∀ (ms : List BodyMatch) (s : TrackerState), s.currentFile = uri →
      ((ms.foldl (typeStep text) s).currentFile = uri ∧
       (ms.foldl (typeStep text) s).functions = s.functions ∧
       (ms.foldl (typeStep text) s).classes = s.classes ∧
       (ms.foldl (typeStep text) s).varTbl = s.varTbl ∧
       (ms.foldl (typeStep text) s).imports = s.imports ∧
       ∀ nm, nm ∈ keysAt (ms.foldl (typeStep text) s).types uri →
         nm ∈ keysAt s.types uri ∨ nm ∈ ms.map BodyMatch.name) := by
  intro ms
  induction ms with
  | nil => intro s h; exact ⟨h, rfl, rfl, rfl, rfl, fun _ hm => Or.inl hm⟩
  | cons m t ih =>
    intro s h
    obtain ⟨f1, f2, f3, f4, f5, f6, f7⟩ :=
      addType_spec s m.name (parseFields m.body)
        (positionAt text m.idx, positionAt text m.stop)
    have hcf2 : (typeStep text s m).currentFile = uri := by
      simp only [typeStep]; rw [f1]; exact h
    obtain ⟨g1, g2, g3, g4, g5, g6⟩ := ih (typeStep text s m) hcf2
    rw [List.foldl_cons]
    refine ⟨g1, ?_, ?_, ?_, ?_, ?_⟩
    · rw [g2]; simp only [typeStep]; exact f2
    · rw [g3]; simp only [typeStep]; exact f3
    · rw [g4]; simp only [typeStep]; exact f4
    · rw [g5]; simp only [typeStep]; exact f5
    · intro nm hk
      rcases g6 nm hk with h2 | h2
      · rcases f7 uri nm h (by simpa only [typeStep] using h2) with h3 | h3
        · exact Or.inl h3
        · exact Or.inr (by simp [h3])
      · exact Or.inr (by simp [h2])

/-- The function-extraction fold. -/
theorem funFold_spec (text : List Char) (uri : String) :
    ∀ (ms : List FunMatch) (s : TrackerState), s.currentFile = uri →
      ((ms.foldl (funStep text) s).currentFile = uri ∧
       (ms.foldl (funStep text) s).types = s.types ∧
       (ms.foldl (funStep text) s).classes = s.classes ∧
       (ms.foldl (funStep text) s).varTbl = s.varTbl ∧
       (ms.foldl (funStep text) s).imports = s.imports ∧
       ∀ nm, nm ∈ keysAt (ms.foldl (funStep text) s).functions uri →
         nm ∈ keysAt s.functions uri ∨ nm ∈ ms.map FunMatch.name) := by
  intro ms
  induction ms with
  | nil => intro s h; exact ⟨h, rfl, rfl, rfl, rfl, fun _ hm => Or.inl hm⟩
  | cons m t ih =>
    intro s h
    obtain ⟨f1, f2, f3, f4, f5, f6, f7⟩ :=
      addFunction_spec s m.name ⟨parseParams m.params, m.ret, none, none⟩
        (positionAt text m.idx, positionAt text m.stop)
    have hcf2 : (funStep text s m).currentFile = uri := by
      simp only [funStep]; rw [f1]; exact h
    obtain ⟨g1, g2, g3, g4, g5, g6⟩ := ih (funStep text s m) hcf2
    rw [List.foldl_cons]
    refine ⟨g1, ?_, ?_, ?_, ?_, ?_⟩
    · rw [g2]; simp only [funStep]; exact f2
    · rw [g3]; simp only [funStep]; exact f3
    · rw [g4]; simp only [funStep]; exact f4
    · rw [g5]; simp only [funStep]; exact f5
    · intro nm hk
      rcases g6 nm hk with h2 | h2
      · rcases f7 uri nm h (by simpa only [funStep] using h2) with h3 | h3
        · exact Or.inl h3
        · exact Or.inr (by simp [h3])
      · exact Or.inr (by simp [h2])

/-- The class-extraction fold. -/
theorem classFold_spec (text : List Char) (uri : String) :
    ∀ (ms : List BodyMatch) (s : TrackerState), s.currentFile = uri →
      ((ms.foldl (classStep text) s).currentFile = uri ∧
       (ms.foldl (classStep text) s).types = s.types ∧
       (ms.foldl (classStep text) s).functions = s.functions ∧
       (ms.foldl (classStep text) s).varTbl = s.varTbl ∧
       (ms.foldl (classStep text) s).imports = s.imports ∧
       ∀ nm, nm ∈ keysAt (ms.foldl (classStep text) s).classes uri →
         nm ∈ keysAt s.classes uri ∨
           nm ∈ ms.flatMap fun m => (methodsOf m).map Prod.fst) := by
  intro ms
  induction ms with
  | nil => intro s h; exact ⟨h, rfl, rfl, rfl, rfl, fun _ hm => Or.inl hm⟩
  | cons m t ih =>
    intro s h
    obtain ⟨f1, f2, f3, f4, f5, f6, f7⟩ :=
      addClass_spec s (methodsOf m)
        (positionAt text m.idx, positionAt text m.stop)
    have hcf2 : (classStep text s m).currentFile = uri := by
      simp only [classStep]; rw [f1]; exact h
    obtain ⟨g1, g2, g3, g4, g5, g6⟩ := ih (classStep text s m) hcf2
    rw [List.foldl_cons]
    refine ⟨g1, ?_, ?_, ?_, ?_, ?_⟩
    · rw [g2]; simp only [classStep]; exact f2
    · rw [g3]; simp only [classStep]; exact f3
    · rw [g4]; simp only [classStep]; exact f4
    · rw [g5]; simp only [classStep]; exact f5
    · intro nm hk
      rcases g6 nm hk with h2 | h2
      · rcases f7 uri nm h (by simpa only [classStep] using h2) with h3 | h3
        · exact Or.inl h3
        · exact Or.inr (by simp [h3])
      · exact Or.inr (by simp [h2])

/-- The variable-extraction fold (inference reads the state but only the
variable table of the current URI is written). -/
theorem varFold_spec (text : List Char) (uri : String) :
    ∀ (ms : List VarMatch) (s : TrackerState), s.currentFile = uri →
      ((ms.foldl (varStep text) s).currentFile = uri ∧
       (ms.foldl (varStep text) s).types = s.types ∧
       (ms.foldl (varStep text) s).functions = s.functions ∧
       (ms.foldl (varStep text) s).classes = s.classes ∧
       (ms.foldl (varStep text) s).imports = s.imports ∧
       ∀ nm, nm ∈ keysAt (ms.foldl (varStep text) s).varTbl uri →
         nm ∈ keysAt s.varTbl uri ∨ nm ∈ ms.map VarMatch.name) := by
  intro ms
  induction ms with
  | nil => intro s h; exact ⟨h, rfl, rfl, rfl, rfl, fun _ hm => Or.inl hm⟩
  | cons m t ih =>
    intro s h
    obtain ⟨f1, f2, f3, f4, f5, f6, f7⟩ :=
      addVariable_spec s m.name
        (if m.declType ≠ "" then m.declType else inferType s (trimJS m.value))
        (positionAt text m.idx, positionAt text m.stop) m.isConst
    have hcf2 : (varStep text s m).currentFile = uri := by
      simp only [varStep]; rw [f1]; exact h
    obtain ⟨g1, g2, g3, g4, g5, g6⟩ := ih (varStep text s m) hcf2
    rw [List.foldl_cons]
    refine ⟨g1, ?_, ?_, ?_, ?_, ?_⟩
    · rw [g2]; simp only [varStep]; exact f2
    · rw [g3]; simp only [varStep]; exact f4
    · rw [g4]; simp only [varStep]; exact f3
    · rw [g5]; simp only [varStep]; exact f5
    · intro nm hk
      rcases g6 nm hk with h2 | h2
      · rcases f7 uri nm h (by simpa only [varStep] using h2) with h3 | h3
        · exact Or.inl h3
        · exact Or.inr (by simp [h3])
      · exact Or.inr (by simp [h2])

/-- Spec of `extractTypesAndFunctionsFromDocument` on a state whose five
tables exist for `uri` (as `parseDocument`'s `setCurrentFile` guarantees):
after the clear-and-rebuild, every recorded name comes from the new text,
and the import list is exactly the new text's import paths. -/
theorem extractDoc_spec (resolve : ResolveOracle) (uri : String)
    (text : List Char) (st : TrackerState)
    (horacle : ∀ p u c, resolve p = some (u, c) → u ≠ uri)
    (hcf : st.currentFile = uri)
    (hv : (alookup st.varTbl uri).isSome = true)
    (hf : (alookup st.functions uri).isSome = true)
    (ht : (alookup st.types uri).isSome = true)
    (hc : (alookup st.classes uri).isSome = true)
    (hi : (alookup st.imports uri).isSome = true) :
    (∀ nm, nm ∈ keysAt (extractDoc resolve st uri text).types uri →
      nm ∈ (typeScanT text).map BodyMatch.name) ∧
    (∀ nm, nm ∈ keysAt (extractDoc resolve st uri text).functions uri →
      nm ∈ (funScanT text).map FunMatch.name) ∧
    (∀ nm, nm ∈ keysAt (extractDoc resolve st uri text).classes uri →
      nm ∈ (classScanT text).flatMap fun m => (methodsOf m).map Prod.fst) ∧
    (∀ nm, nm ∈ keysAt (extractDoc resolve st uri text).varTbl uri →
      nm ∈ (varScanT text).map VarMatch.name) ∧
    alookup (extractDoc resolve st uri text).imports uri =
      some (importScanT text) := by
  have hdef : extractDoc resolve st uri text =
      (varScanT text).foldl (varStep text)
        ((classScanT text).foldl (classStep text)
          ((funScanT text).foldl (funStep text)
            ((typeScanT text).foldl (typeStep text)
              ((importScanT text).foldl (addImport resolve)
                { st with
                  varTbl := clearKey st.varTbl uri,
                  functions := clearKey st.functions uri,
                  types := clearKey st.types uri,
                  classes := clearKey st.classes uri,
                  imports := clearKey st.imports uri })))) := rfl
  rw [hdef]
  set S1 : TrackerState := { st with
    varTbl := clearKey st.varTbl uri,
    functions := clearKey st.functions uri,
    types := clearKey st.types uri,
    classes := clearKey st.classes uri,
    imports := clearKey st.imports uri } with hS1
  set S2 := (importScanT text).foldl (addImport resolve) S1 with hS2
  set S3 := (typeScanT text).foldl (typeStep text) S2 with hS3
  set S4 := (funScanT text).foldl (funStep text) S3 with hS4
  set S5 := (classScanT text).foldl (classStep text) S4 with hS5
  set S6 := (varScanT text).foldl (varStep text) S5 with hS6
  have h1cf : S1.currentFile = uri := hcf
  have h1i : alookup S1.imports uri = some [] := alookup_clearKey_self _ _ hi
  obtain ⟨i1, i2, i3, i4, i5, i6⟩ :=
    importsFold_spec resolve uri horacle (importScanT text) S1 [] h1cf h1i
  rw [← hS2] at i1 i2 i3 i4 i5 i6
  obtain ⟨t1, t2, t3, t4, t5, t6⟩ :=
    typesFold_spec text uri (typeScanT text) S2 i1
  rw [← hS3] at t1 t2 t3 t4 t5 t6
  obtain ⟨u1, u2, u3, u4, u5, u6⟩ :=
    funFold_spec text uri (funScanT text) S3 t1
  rw [← hS4] at u1 u2 u3 u4 u5 u6
  obtain ⟨c1, c2, c3, c4, c5, c6⟩ :=
    classFold_spec text uri (classScanT text) S4 u1
  rw [← hS5] at c1 c2 c3 c4 c5 c6
  obtain ⟨v1, v2, v3, v4, v5, v6⟩ :=
    varFold_spec text uri (varScanT text) S5 c1
  rw [← hS6] at v1 v2 v3 v4 v5 v6
  have hS2t : alookup S2.types uri = some [] :=
    i2.trans (alookup_clearKey_self _ _ ht)
  have hS2f : alookup S2.functions uri = some [] :=
    i3.trans (alookup_clearKey_self _ _ hf)
  have hS2c : alookup S2.classes uri = some [] :=
    i4.trans (alookup_clearKey_self _ _ hc)
  have hS2v : alookup S2.varTbl uri = some [] :=
    i5.trans (alookup_clearKey_self _ _ hv)
  refine ⟨?_, ?_, ?_, ?_, ?_⟩
  · intro nm hk
    rw [show S6.types = S3.types from (v2.trans c2).trans u2] at hk
    rcases t6 nm hk with h2 | h2
    · exfalso
      unfold keysAt at h2
      rw [hS2t] at h2
      simp at h2
    · exact h2
  · intro nm hk
    rw [show S6.functions = S4.functions from v3.trans c3] at hk
    rcases u6 nm hk with h2 | h2
    · exfalso
      unfold keysAt at h2
      rw [t2, hS2f] at h2
      simp at h2
    · exact h2
  · intro nm hk
    rw [show S6.classes = S5.classes from v4] at hk
    rcases c6 nm hk with h2 | h2
    · exfalso
      unfold keysAt at h2
      rw [u3, t3, hS2c] at h2
      simp at h2
    · exact h2
  · intro nm hk
    rcases v6 nm hk with h2 | h2
    · exfalso
      unfold keysAt at h2
      rw [c4, u4, t4, hS2v] at h2
      simp at h2
    · exact h2
  · rw [v5, c5, u5, t5, i6]
    simp

/-- C4 counterexample: a type `Old` recorded for `m.bn` from a previous
text survives a re-index of `m.bn` through the import-resolution path
(`extractTypesAndFunctionsFromText`) with empty new text; that path never
clears the table. -/
theorem C4_counterexample :
    alookup (extractText
      { initialTracker with
          types := initialTracker.types ++
            [("file:///m.bn", [("Old", ⟨[("x", "int")], none⟩)])] }
      [] "file:///m.bn").types "file:///m.bn" =
      some [("Old", ⟨[("x", "int")], none⟩)] := by decide

/-- C4 amended: a re-index through the document path (`parseDocument` then
`extractTypesAndFunctionsFromDocument`) first clears the URI's five
tables, so, provided import resolution never maps back onto the same URI,
every type, function, class-method and variable name recorded afterwards
comes from the new text, and the import list is exactly the new text's
list of paths; the import-resolution path (`…FromText`), by contrast, does
not clear, and declarations from a previous version survive it. -/
theorem C4_amended (resolve : ResolveOracle) (st : TrackerState)
    (doc : TextDoc)
    (horacle : ∀ p u c, resolve p = some (u, c) → u ≠ doc.uri) :
    (∀ nm, nm ∈ keysAt (parseDocumentIndex resolve st doc).types doc.uri →
      nm ∈ (typeScanT doc.text).map BodyMatch.name) ∧
    (∀ nm, nm ∈ keysAt (parseDocumentIndex resolve st doc).functions doc.uri →
      nm ∈ (funScanT doc.text).map FunMatch.name) ∧
    (∀ nm, nm ∈ keysAt (parseDocumentIndex resolve st doc).classes doc.uri →
      nm ∈ (classScanT doc.text).flatMap fun m => (methodsOf m).map Prod.fst) ∧
    (∀ nm, nm ∈ keysAt (parseDocumentIndex resolve st doc).varTbl doc.uri →
      nm ∈ (varScanT doc.text).map VarMatch.name) ∧
    alookup (parseDocumentIndex resolve st doc).imports doc.uri =
      some (importScanT doc.text) :=
  extractDoc_spec resolve doc.uri doc.text (setCurrentFile st doc.uri) horacle
    rfl
    (by dsimp only [setCurrentFile]; rw [alookup_ensureKey_self]; rfl)
    (by dsimp only [setCurrentFile]; rw [alookup_ensureKey_self]; rfl)
    (by dsimp only [setCurrentFile]; rw [alookup_ensureKey_self]; rfl)
    (by dsimp only [setCurrentFile]; rw [alookup_ensureKey_self]; rfl)
    (by dsimp only [setCurrentFile]; rw [alookup_ensureKey_self]; rfl)

/-- C4 witness: the amended statement at a concrete document; the import
list recorded after the re-index is exactly the new text's import path. -/
theorem C4_witness :
    alookup (parseDocumentIndex noImports initialTracker
      ⟨"file:///m.bn", 1,
        ("import \x22lib.bn\x22\ndef A \x7b x: int \x7d".data)⟩).imports
      "file:///m.bn" =
      some (importScanT ("import \x22lib.bn\x22\ndef A \x7b x: int \x7d".data)) :=
  (C4_amended noImports initialTracker
    ⟨"file:///m.bn", 1, ("import \x22lib.bn\x22\ndef A \x7b x: int \x7d".data)⟩
    (fun p u c h => by simp [noImports] at h)).2.2.2.2
